import Mathlib

/-!
Verification of the two-pass configuration validator of the hop bridge
operator node (`src/packages/hop-node/src/config/validation.ts`).

The TypeScript code walks an untyped, already-parsed JSON configuration
object.  We embed JavaScript runtime values shallowly as the inductive type
`JVal` and translate the two validators, `validateConfigFileStructure` and
`validateConfigValues`, statement by statement.  JavaScript-specific
behaviour that the code relies on is modelled explicitly:

* truthiness (`if (x)`, `if (!found)`) via `truthy`;
* `Object.keys`, which throws a `TypeError` on `null`/`undefined`, returns
  index strings for strings, and returns `[]` for other primitives
  (`jsKeys`);
* `for ... in`, which iterates nothing on `null`/`undefined` (`forInKeys`);
* property access on a non-nullish receiver, which yields `undefined` for
  a missing property (`jget`); the validators only ever dereference
  receivers that earlier statements proved non-nullish, so a total `jget`
  is faithful on every reachable path;
* `instanceof Object` (`isObject`) and template-literal string coercion
  (`jsToString`).

Failure is modelled with `Except String Unit`; the error strings reproduce
the messages thrown by the source.
-/

/-- A JavaScript runtime value, as far as the validator can observe one.
Numbers are carried as integers: the validators only test `typeof` and
truthiness of numbers, never fractional values. -/
inductive JVal : Type where
  | undefined : JVal
  | null : JVal
  | bool : Bool → JVal
  | num : Int → JVal
  | str : String → JVal
  | obj : List (String × JVal) → JVal

/-- JavaScript truthiness: `undefined`, `null`, `false`, `0` and `""` are
falsy, everything else (including every object) is truthy. -/
def truthy : JVal → Bool
  | .undefined => false
  | .null => false
  | .bool b => b
  | .num n => n != 0
  | .str s => s != ""
  | .obj _ => true

/-- `v instanceof Object` for the values a parsed config can hold:
true exactly for objects, false for every primitive and for `null`. -/
def isObject : JVal → Bool
  | .obj _ => true
  | _ => false

/-- `typeof v === 'string'`. -/
def isStr : JVal → Bool
  | .str _ => true
  | _ => false

/-- `typeof v === 'number'`. -/
def isNum : JVal → Bool
  | .num _ => true
  | _ => false

/-- `typeof v === 'boolean'`. -/
def isBool : JVal → Bool
  | .bool _ => true
  | _ => false

/-- Whether a value is `undefined` (the result of reading an absent
property). -/
def isUndefined : JVal → Bool
  | .undefined => true
  | _ => false

/-- The string payload of a string value (and `""` otherwise; only applied
after a `typeof === 'string'` check, mirroring the source). -/
def strVal : JVal → String
  | .str s => s
  | _ => ""

/-- Decimal rendering of a natural number, written with explicit fuel so it
reduces by `rfl` in the kernel; used for the index keys JavaScript exposes
on strings. -/
def natStrGo : Nat → Nat → List Char
  | 0, _ => []
  | fuel + 1, n =>
    if n < 10 then [Nat.digitChar n]
    else natStrGo fuel (n / 10) ++ [Nat.digitChar (n % 10)]

/-- Decimal string of a natural number (`0 ↦ "0"`, `12 ↦ "12"`). -/
def natStr (n : Nat) : String := String.mk (natStrGo (n + 1) n)

/-- The keys `for ... in` iterates: object keys in insertion order, index
strings for strings, nothing for primitives and for `null`/`undefined`. -/
def forInKeys : JVal → List String
  | .obj fields => fields.map (fun p => p.1)
  | .str s => (List.range s.length).map natStr
  | _ => []

/-- `Object.keys(v)`: like `forInKeys`, except that `null` and `undefined`
make it throw a `TypeError`. -/
def jsKeys (v : JVal) : Except String (List String) :=
  match v with
  | .undefined => Except.error "TypeError: Cannot convert undefined or null to object"
  | .null => Except.error "TypeError: Cannot convert undefined or null to object"
  | v => Except.ok (forInKeys v)

/-- Property read `v[k]` on a non-nullish receiver: the stored value for
objects, a one-character string for a valid string index, `undefined`
otherwise. -/
def jget (v : JVal) (k : String) : JVal :=
  match v with
  | .obj fields =>
    match fields.find? (fun p => p.1 == k) with
    | some p => p.2
    | none => .undefined
  | .str s =>
    match (List.range s.length).find? (fun i => natStr i == k) with
    | some i => .str (String.mk [s.data.getD i (Char.ofNat 32)])
    | none => .undefined
  | _ => .undefined

/-- Whether `v[k]` is a defined property (`k in v` up to `undefined`-valued
fields, which parsed JSON cannot contain). -/
def jhas (v : JVal) (k : String) : Bool := !(isUndefined (jget v k))

/-- Template-literal coercion of a value to a string. -/
def jsToString : JVal → String
  | .undefined => "undefined"
  | .null => "null"
  | .bool true => "true"
  | .bool false => "false"
  | .num n => toString n
  | .str s => s
  | .obj _ => "[object Object]"

/-- Whether an `Except` computation succeeded. -/
def exOk : Except String Unit → Bool
  | .ok _ => true
  | .error _ => false

/-- Run an effectful check over every element of a list in order, stopping
at the first failure: the semantics of the source's `for` loops whose
bodies can throw. -/
def forEachE (xs : List String) (f : String → Except String Unit) : Except String Unit :=
  match xs with
  | [] => Except.ok ()
  | x :: rest => f x >>= fun _ => forEachE rest f

/-- `keys.all (· ∈ valid)` as a boolean, the subset relation the
key-set checks decide. -/
def allIn (keys valid : List String) : Bool := keys.all (fun k => valid.contains k)

/-- `validateKeys` (validation.ts lines 16-22): walks the found keys in
order and throws on the first one missing from the allow-list, naming the
offending key and the joined allow-list. -/
def validateKeys (validKeys : List String) (keys : List String) : Except String Unit :=
  match keys with
  | [] => Except.ok ()
  | key :: rest =>
    if validKeys.contains key = false then
      Except.error ("unrecognized key \"" ++ key ++ "\". Valid keys are: " ++ String.intercalate "," validKeys)
    else validateKeys validKeys rest

/-! ### Closed enumerations

`Chain` and `Watchers` come from `src/constants` and `src/config`, which are
not part of the sources under review; the validator only compares their
string values for equality and interpolates them into messages.  Modelled
from the spec: closed enumerations of distinct chain slugs and watcher
names, with `Chain.Ethereum` the base settlement chain. -/

def Chain.Ethereum : String := "ethereum"

def Chain.Optimism : String := "optimism"

def Chain.Arbitrum : String := "arbitrum"

def Chain.Gnosis : String := "gnosis"

def Chain.Polygon : String := "polygon"

def Chain.Nova : String := "nova"

def Chain.ZkSync : String := "zksync"

def Chain.Linea : String := "linea"

def Chain.ScrollZk : String := "scrollzk"

def Chain.Base : String := "base"

def Watchers.BondTransferRoot : String := "bondTransferRoot"

def Watchers.BondWithdrawal : String := "bondWithdrawal"

def Watchers.Challenge : String := "challenge"

def Watchers.CommitTransfers : String := "commitTransfers"

def Watchers.SettleBondedWithdrawals : String := "settleBondedWithdrawals"

def Watchers.ConfirmRoots : String := "confirmRoots"

def Watchers.L1ToL2Relay : String := "L1ToL2Relay"

/-- The top-level section allow-list (validation.ts lines 33-53). -/
def validSectionKeys : List String :=
  ["network", "chains", "sync", "tokens", "commitTransfers", "bondWithdrawals",
   "settleBondedWithdrawals", "watchers", "db", "logging", "keystore",
   "addresses", "metrics", "fees", "routes", "bonders", "signer", "vault",
   "blocklist"]

/-- The watcher-name allow-list (lines 55-63). -/
def validWatcherKeys : List String :=
  [Watchers.BondTransferRoot, Watchers.BondWithdrawal, Watchers.Challenge,
   Watchers.CommitTransfers, Watchers.SettleBondedWithdrawals,
   Watchers.ConfirmRoots, Watchers.L1ToL2Relay]

/-- The closed chain enumeration (lines 65-76). -/
def validChainKeys : List String :=
  [Chain.Ethereum, Chain.Optimism, Chain.Arbitrum, Chain.Gnosis, Chain.Polygon,
   Chain.Nova, Chain.ZkSync, Chain.Linea, Chain.ScrollZk, Chain.Base]

/-- The closed token enumeration (lines 79-91). -/
def validTokenKeys : List String :=
  ["USDC", "USDT", "DAI", "ETH", "MATIC", "WBTC", "HOP", "SNX", "sUSD",
   "rETH", "UNI"]

/-! ### The structural pass (`validateConfigFileStructure`, lines 24-289)

Each section's check is a definition taking the section's value (and the
contextually computed `enabledChains` / `enabledTokens` lists) as explicit
arguments; `validateStructureBody` wires them together in source order. -/

/-- Lines 103-108: every chain entry's own keys must be within
`['rpcUrl', 'maxGasPrice']`. -/
def checkChainEntries (chains : JVal) : Except String Unit :=
  forEachE (forInKeys chains) (fun key =>
    jsKeys (jget chains key) >>= fun chainKeys =>
    validateKeys ["rpcUrl", "maxGasPrice"] chainKeys)

/-- Lines 120-124: the `db` section's keys. -/
def checkDb (db : JVal) : Except String Unit :=
  if truthy db then
    jsKeys db >>= fun dbKeys =>
    validateKeys ["location"] dbKeys
  else Except.ok ()

/-- Lines 126-135: the `logging` section's keys, and the value of
`logging.level` against the closed level set. -/
def checkLogging (logging : JVal) : Except String Unit :=
  if truthy logging then
    jsKeys logging >>= fun loggingKeys =>
    validateKeys ["level"] loggingKeys >>= fun _ =>
    if truthy (jget logging "level") then
      validateKeys ["debug", "info", "warn", "error"] [jsToString (jget logging "level")]
    else Except.ok ()
  else Except.ok ()

/-- Lines 137-147: the `keystore` section's keys. -/
def checkKeystore (keystore : JVal) : Except String Unit :=
  if truthy keystore then
    jsKeys keystore >>= fun keystoreProps =>
    validateKeys ["location", "pass", "passwordFile", "parameterStore", "awsRegion"] keystoreProps
  else Except.ok ()

/-- Lines 149-158: the `signer` section's keys. -/
def checkSigner (signer : JVal) : Except String Unit :=
  if truthy signer then
    jsKeys signer >>= fun signerProps =>
    validateKeys ["type", "keyId", "awsRegion", "lambdaFunctionName"] signerProps
  else Except.ok ()

/-- Lines 160-164: the `metrics` section's keys. -/
def checkMetrics (metrics : JVal) : Except String Unit :=
  if truthy metrics then
    jsKeys metrics >>= fun metricsKeys =>
    validateKeys ["enabled", "port"] metricsKeys
  else Except.ok ()

/-- Lines 166-172: the `addresses` section's keys. -/
def checkAddresses (addresses : JVal) : Except String Unit :=
  if truthy addresses then
    jsKeys addresses >>= fun addressesProps =>
    validateKeys ["location"] addressesProps
  else Except.ok ()

/-- Lines 174-181: every route source chain and destination chain must be
an enabled chain (a key of the `chains` section). -/
def checkRoutes (routes : JVal) (enabledChains : List String) : Except String Unit :=
  if truthy routes then
    jsKeys routes >>= fun sourceChains =>
    validateKeys enabledChains sourceChains >>= fun _ =>
    forEachE (forInKeys routes) (fun sourceChain =>
      jsKeys (jget routes sourceChain) >>= fun destinationChains =>
      validateKeys enabledChains destinationChains)
  else Except.ok ()

/-- `Set.add` over a list kept in insertion order: the accumulation of
lines 186-191. -/
def addDest (acc : List String) (dc : String) : List String :=
  if acc.contains dc then acc else acc ++ [dc]

/-- Lines 186-191, one source chain at a time: collect the destination
chains appearing anywhere in `routes`, via `Object.keys` on each source's
value. -/
def collectDestGo (routes : JVal) : List String → List String → Except String (List String)
  | [], acc => Except.ok acc
  | sourceChain :: rest, acc =>
    jsKeys (jget routes sourceChain) >>= fun destinationChains =>
    collectDestGo routes rest (destinationChains.foldl addDest acc)

/-- Lines 186-191: the destination-chain set of `routes`, in insertion
order. -/
def collectDestChainsM (routes : JVal) : Except String (List String) :=
  collectDestGo routes (forInKeys routes) []

/-- The pure value `collectDestChainsM` produces whenever it does not throw
(used to state theorems). -/
def destChainsList (routes : JVal) : List String :=
  (forInKeys routes).foldl
    (fun acc sourceChain => (forInKeys (jget routes sourceChain)).foldl addDest acc) []

/-- Lines 183-208: the `fees` section.  Token keys must be enabled tokens;
for every token in `fees` and every destination chain of `routes` a truthy
fee entry must exist; every enabled token must have a truthy entry in
`fees`. -/
def checkFees (fees routes : JVal) (enabledChains enabledTokens : List String) : Except String Unit :=
  if truthy fees then
    jsKeys fees >>= fun tokens =>
    validateKeys enabledTokens tokens >>= fun _ =>
    collectDestChainsM routes >>= fun destinationChains =>
    forEachE (forInKeys fees) (fun token =>
      jsKeys (jget fees token) >>= fun chains =>
      validateKeys enabledChains chains >>= fun _ =>
      forEachE destinationChains (fun chain =>
        if truthy (jget (jget fees token) chain) = false then
          Except.error ("missing fee for chain \"" ++ chain ++ "\" for token \"" ++ token ++ "\"")
        else Except.ok ())) >>= fun _ =>
    forEachE enabledTokens (fun enabledToken =>
      if truthy (jget fees enabledToken) = false then
        Except.error ("missing fee for token \"" ++ enabledToken ++ "\"")
      else Except.ok ())
  else Except.ok ()

/-- Lines 210-239: the `commitTransfers` section.  If
`minThresholdAmount` is non-empty, every enabled token needs a truthy
threshold entry for every route whose source chain is not Ethereum;
Ethereum-sourced routes are skipped. -/
def checkCommitTransfers (ct routes : JVal) (enabledChains enabledTokens : List String) : Except String Unit :=
  if truthy ct then
    jsKeys ct >>= fun commitTransfersKeys =>
    validateKeys ["minThresholdAmount"] commitTransfersKeys >>= fun _ =>
    jsKeys (jget ct "minThresholdAmount") >>= fun tokens =>
    if tokens.length ≠ 0 then
      validateKeys enabledTokens tokens >>= fun _ =>
      forEachE enabledTokens (fun token =>
        if truthy (jget (jget ct "minThresholdAmount") token) = false then
          Except.error ("missing minThresholdAmount config for token \"" ++ token ++ "\"")
        else
          jsKeys (jget (jget ct "minThresholdAmount") token) >>= fun chains =>
          validateKeys enabledChains chains >>= fun _ =>
          forEachE (forInKeys routes) (fun sourceChain =>
            if sourceChain = Chain.Ethereum then Except.ok ()
            else if truthy (jget (jget (jget ct "minThresholdAmount") token) sourceChain) = false then
              Except.error ("missing minThresholdAmount config for token \"" ++ token ++ "\" source chain \"" ++ sourceChain ++ "\"")
            else
              forEachE (forInKeys (jget routes sourceChain)) (fun destinationChain =>
                if truthy (jget (jget (jget (jget ct "minThresholdAmount") token) sourceChain) destinationChain) = false then
                  Except.error ("missing minThresholdAmount config for token \"" ++ token ++ "\" source chain \"" ++ sourceChain ++ "\" destination chain \"" ++ destinationChain ++ "\"")
                else Except.ok ())))
    else Except.ok ()
  else Except.ok ()

/-- Lines 241-262: the `bonders` section: an object mapping enabled tokens
to objects mapping enabled source chains to objects keyed by enabled
destination chains. -/
def checkBonders (bonders : JVal) (enabledChains enabledTokens : List String) : Except String Unit :=
  if truthy bonders then
    if isObject bonders = false then
      Except.error "bonders config should be an object"
    else
      jsKeys bonders >>= fun tokens =>
      validateKeys enabledTokens tokens >>= fun _ =>
      forEachE enabledTokens (fun token =>
        if isObject (jget bonders token) = false then
          Except.error ("bonders config for \"" ++ token ++ "\" should be an object")
        else
          jsKeys (jget bonders token) >>= fun sourceChains =>
          validateKeys enabledChains sourceChains >>= fun _ =>
          forEachE (forInKeys (jget bonders token)) (fun sourceChain =>
            if isObject (jget (jget bonders token) sourceChain) = false then
              Except.error ("bonders config for \"" ++ token ++ "." ++ sourceChain ++ "\" should be an object")
            else
              jsKeys (jget (jget bonders token) sourceChain) >>= fun destinationChains =>
              validateKeys enabledChains destinationChains))
  else Except.ok ()

/-- Lines 264-278: the `vault` section: token keys against the closed token
enumeration, chain keys against the closed chain enumeration, entry keys
against the vault parameter allow-list. -/
def checkVault (vault : JVal) : Except String Unit :=
  if truthy vault then
    jsKeys vault >>= fun vaultTokens =>
    validateKeys validTokenKeys vaultTokens >>= fun _ =>
    forEachE (forInKeys vault) (fun tokenSymbol =>
      jsKeys (jget vault tokenSymbol) >>= fun vaultChains =>
      validateKeys validChainKeys vaultChains >>= fun _ =>
      forEachE (forInKeys (jget vault tokenSymbol)) (fun chain =>
        jsKeys (jget (jget vault tokenSymbol) chain) >>= fun chainTokenConfigKeys =>
        validateKeys ["depositThresholdAmount", "depositAmount", "strategy", "autoWithdraw", "autoDeposit"] chainTokenConfigKeys))
  else Except.ok ()

/-- Lines 280-288: the `blocklist` section must be an object with keys
within `['path', 'addresses']`. -/
def checkBlocklist (blocklist : JVal) : Except String Unit :=
  if truthy blocklist then
    if isObject blocklist = false then
      Except.error "blocklist config must be an object"
    else
      jsKeys blocklist >>= fun keys =>
      validateKeys ["path", "addresses"] keys
  else Except.ok ()

/-- Lines 93-289 in source order, after the two argument guards. -/
def validateStructureBody (config : JVal) : Except String Unit :=
  jsKeys config >>= fun sectionKeys =>
  validateKeys validSectionKeys sectionKeys >>= fun _ =>
  jsKeys (jget config "chains") >>= fun enabledChains =>
  if enabledChains.contains Chain.Ethereum = false then
    Except.error ("config for chain \"" ++ Chain.Ethereum ++ "\" is required")
  else
  validateKeys validChainKeys enabledChains >>= fun _ =>
  checkChainEntries (jget config "chains") >>= fun _ =>
  jsKeys (jget config "tokens") >>= fun tokenSectionKeys =>
  let enabledTokens := tokenSectionKeys.filter (fun token => truthy (jget (jget config "tokens") token))
  validateKeys validTokenKeys enabledTokens >>= fun _ =>
  jsKeys (jget config "watchers") >>= fun watcherKeys =>
  validateKeys validWatcherKeys watcherKeys >>= fun _ =>
  if truthy (jget config "keystore") && truthy (jget config "signer") then
    Except.error "You cannot have both a keystore and a signer"
  else
  checkDb (jget config "db") >>= fun _ =>
  checkLogging (jget config "logging") >>= fun _ =>
  checkKeystore (jget config "keystore") >>= fun _ =>
  checkSigner (jget config "signer") >>= fun _ =>
  checkMetrics (jget config "metrics") >>= fun _ =>
  checkAddresses (jget config "addresses") >>= fun _ =>
  checkRoutes (jget config "routes") enabledChains >>= fun _ =>
  checkFees (jget config "fees") (jget config "routes") enabledChains enabledTokens >>= fun _ =>
  checkCommitTransfers (jget config "commitTransfers") (jget config "routes") enabledChains enabledTokens >>= fun _ =>
  checkBonders (jget config "bonders") enabledChains enabledTokens >>= fun _ =>
  checkVault (jget config "vault") >>= fun _ =>
  checkBlocklist (jget config "blocklist")

/-- `validateConfigFileStructure` (lines 24-289): the structural pass. -/
def validateConfigFileStructure (config : JVal) : Except String Unit :=
  if truthy config = false then Except.error "config is required"
  else if isObject config = false then Except.error "config must be a JSON object"
  else validateStructureBody config

/-- The enabled-token set of a raw configuration (line 110): the keys of
the `tokens` section whose value is truthy. -/
def enabledTokensOf (config : JVal) : List String :=
  (forInKeys (jget config "tokens")).filter
    (fun token => truthy (jget (jget config "tokens") token))

/-- The destination chains appearing anywhere in a configuration's
`routes` section. -/
def destChainsOf (config : JVal) : List String := destChainsList (jget config "routes")

/-! ### The value pass (`validateConfigValues`, lines 291-409) -/

/-- The observable part of a parsed URL: its scheme (with the trailing
colon, as `URL#protocol` reports it) and its host. -/
structure URLParts : Type where
  protocol : String
  host : String

/-- Finds the first `"://"` in a character list, returning the characters
before it and the characters after it. -/
def splitSchemeGo : List Char → List Char → Option (List Char × List Char)
  | [], _ => none
  | ':' :: '/' :: '/' :: rest, acc => some (acc.reverse, rest)
  | c :: rest, acc => splitSchemeGo rest (c :: acc)

/-- Modelled from the spec: the external URL parser (`URL` from the `url`
module), a collaborator that "succeeds returning `{scheme, host, ...}` or
fails signaling invalid format".  Simplified to what the validator
observes: a URL is `scheme://authority...`; the scheme is lower-cased and
reported with a trailing colon, the host is the authority up to the first
slash; strings without a scheme separator fail to parse. -/
def parseURL (s : String) : Option URLParts :=
  match splitSchemeGo s.data [] with
  | none => none
  | some (schemeChars, rest) =>
    if schemeChars.isEmpty then none
    else
      some ⟨String.mk (schemeChars.map Char.toLower) ++ ":",
            String.mk (rest.takeWhile (fun c => c ≠ '/'))⟩

/-- Loose equality with `null` (`x == null`): true exactly for `null` and
`undefined`. -/
def isNullish : JVal → Bool
  | .null => true
  | .undefined => true
  | _ => false

/-- `v <= 0` for a numeric value (`false` on non-numbers, which the source
rules out first). -/
def numNonPos : JVal → Bool
  | .num n => decide (n ≤ 0)
  | _ => false

/-- Lines 300-336, the body of the per-chain loop: a truthy entry, a truthy
string `rpcUrl` parsing as an HTTP(S) URL with a host, and strictly
positive numeric `waitConfirmations` / `maxGasPrice` when non-nullish. -/
def validateNetworkEntry (chainSlug : String) (chain : JVal) : Except String Unit :=
  if truthy chain = false then
    Except.error ("RPC config for chain \"" ++ jsToString chain ++ "\" is required")
  else
  if truthy (jget chain "rpcUrl") = false then
    Except.error ("RPC url for chain \"" ++ chainSlug ++ "\" is required")
  else if isStr (jget chain "rpcUrl") = false then
    Except.error ("RPC url for chain \"" ++ chainSlug ++ "\" must be a string")
  else
  (match parseURL (strVal (jget chain "rpcUrl")) with
   | none => Except.error ("rpc url \"" ++ strVal (jget chain "rpcUrl") ++ "\" is invalid")
   | some parsed =>
     if parsed.protocol = "" ∨ parsed.host = "" ∨ ["http:", "https:"].contains parsed.protocol = false then
       Except.error ("rpc url \"" ++ strVal (jget chain "rpcUrl") ++ "\" is invalid")
     else Except.ok ()) >>= fun _ =>
  (if isNullish (jget chain "waitConfirmations") = false then
    if isNum (jget chain "waitConfirmations") = false then
      Except.error ("waitConfirmations for chain \"" ++ chainSlug ++ "\" must be a number")
    else if numNonPos (jget chain "waitConfirmations") then
      Except.error ("waitConfirmations for chain \"" ++ chainSlug ++ "\" must be greater than 0")
    else Except.ok ()
  else Except.ok ()) >>= fun _ =>
  if isNullish (jget chain "maxGasPrice") = false then
    if isNum (jget chain "maxGasPrice") = false then
      Except.error ("maxGasPrice for chain \"" ++ chainSlug ++ "\" must be a number")
    else if numNonPos (jget chain "maxGasPrice") then
      Except.error ("maxGasPrice for chain \"" ++ chainSlug ++ "\" must be greater than 0")
    else Except.ok ()
  else Except.ok ()

/-- Lines 340-356: every enabled token × non-Ethereum-sourced route needs a
numeric `minThresholdAmount` entry.  (Where the source would raise a
`TypeError` dereferencing a missing intermediate level, the model reports
the same entry as non-numeric; both reject.) -/
def valuesCommitTransfers (enabledTokens : List String) (config : JVal) : Except String Unit :=
  if truthy (jget config "commitTransfers") then
    jsKeys (jget (jget config "commitTransfers") "minThresholdAmount") >>= fun ks =>
    if ks.length ≠ 0 then
      forEachE enabledTokens (fun token =>
        forEachE (forInKeys (jget config "routes")) (fun sourceChain =>
          if sourceChain = Chain.Ethereum then Except.ok ()
          else
            forEachE (forInKeys (jget (jget config "routes") sourceChain)) (fun destinationChain =>
              if isNum (jget (jget (jget (jget (jget config "commitTransfers") "minThresholdAmount") token) sourceChain) destinationChain) = false then
                Except.error ("minThresholdAmount config for token \"" ++ token ++ "\" source chain \"" ++ sourceChain ++ "\" destination chain \"" ++ destinationChain ++ "\" must be a number")
              else Except.ok ())))
    else Except.ok ()
  else Except.ok ()

/-- Lines 358-375: every bonder address must be a string accepted by the
external checksum primitive (injected as the predicate `checksum`). -/
def valuesBonders (enabledTokens : List String) (checksum : String → Bool) (config : JVal) : Except String Unit :=
  if truthy (jget config "bonders") then
    forEachE enabledTokens (fun token =>
      forEachE (forInKeys (jget (jget config "bonders") token)) (fun sourceChain =>
        forEachE (forInKeys (jget (jget (jget config "bonders") token) sourceChain)) (fun destinationChain =>
          if isStr (jget (jget (jget (jget config "bonders") token) sourceChain) destinationChain) = false then
            Except.error "config bonder address should be a string"
          else if checksum (strVal (jget (jget (jget (jget config "bonders") token) sourceChain) destinationChain)) = false then
            Except.error ("config bonder address \"" ++ strVal (jget (jget (jget (jget config "bonders") token) sourceChain) destinationChain) ++ "\" is invalid")
          else Except.ok ())))
  else Except.ok ()

/-- Lines 382-400, the body of the per-entry vault loop: boolean
`autoDeposit` (with numeric deposit amounts when it is truthy), boolean
`autoWithdraw`, and a strategy drawn from `{yearn, aave}`. -/
def valuesVaultEntry (chainTokenConfig : JVal) : Except String Unit :=
  if isBool (jget chainTokenConfig "autoDeposit") = false then
    Except.error "autoDeposit should be boolean"
  else
  (if truthy (jget chainTokenConfig "autoDeposit") then
    if isNum (jget chainTokenConfig "depositThresholdAmount") = false then
      Except.error "depositThresholdAmount should be a number"
    else if isNum (jget chainTokenConfig "depositAmount") = false then
      Except.error "depositAmount should be a number"
    else Except.ok ()
  else Except.ok ()) >>= fun _ =>
  if isBool (jget chainTokenConfig "autoWithdraw") = false then
    Except.error "autoWithdraw should be boolean"
  else if (isStr (jget chainTokenConfig "strategy") && ["yearn", "aave"].contains (strVal (jget chainTokenConfig "strategy"))) = false then
    Except.error "strategy is invalid. Valid options are: yearn, aave"
  else Except.ok ()

/-- Lines 377-403: the vault value checks over every token × chain entry. -/
def valuesVault (config : JVal) : Except String Unit :=
  if truthy (jget config "vault") then
    forEachE (forInKeys (jget config "vault")) (fun tokenSymbol =>
      forEachE (forInKeys (jget (jget config "vault") tokenSymbol)) (fun chain =>
        valuesVaultEntry (jget (jget (jget config "vault") tokenSymbol) chain)))
  else Except.ok ()

/-- Lines 405-409: `blocklist.path` must be a string when `blocklist` is
present. -/
def valuesBlocklist (config : JVal) : Except String Unit :=
  if truthy (jget config "blocklist") then
    if isStr (jget (jget config "blocklist") "path") = false then
      Except.error "blocklist.path must be a string"
    else Except.ok ()
  else Except.ok ()

/-- `validateConfigValues` (lines 291-409): the value pass over the
resolved configuration.  The external collaborators `getEnabledTokens`
(from `src/config`) and the ethers checksum primitive are injected as the
explicit parameters `enabledTokens` and `checksum`, as §9 of the design
prescribes. -/
def validateConfigValues (enabledTokens : List String) (checksum : String → Bool) (config : JVal) : Except String Unit :=
  if truthy config = false then Except.error "config is required"
  else if isObject config = false then Except.error "config must be a JSON object"
  else
    forEachE (forInKeys (jget config "networks")) (fun chainSlug =>
      validateNetworkEntry chainSlug (jget (jget config "networks") chainSlug)) >>= fun _ =>
    valuesCommitTransfers enabledTokens config >>= fun _ =>
    valuesBonders enabledTokens checksum config >>= fun _ =>
    valuesVault config >>= fun _ =>
    valuesBlocklist config

/-! ### Infrastructure lemmas -/

theorem exbind_ok {α β : Type} (a : α) (f : α → Except String β) :
    (Except.ok a >>= f) = f a := rfl

theorem exbind_error {α β : Type} (m : String) (f : α → Except String β) :
    ((Except.error m : Except String α) >>= f) = Except.error m := rfl

theorem exbind_eq_ok {α β : Type} {x : Except String α} {f : α → Except String β} {b : β}
    (h : (x >>= f) = Except.ok b) : ∃ a, x = Except.ok a ∧ f a = Except.ok b := by
  cases x with
  | ok a => exact ⟨a, rfl, h⟩
  | error m => rw [exbind_error] at h; cases h

theorem validateKeys_ok_iff (validKeys keys : List String) :
    validateKeys validKeys keys = Except.ok () ↔ ∀ k ∈ keys, validKeys.contains k = true := by
  induction keys with
  | nil => simp [validateKeys]
  | cons key rest ih =>
    cases hc : validKeys.contains key with
    | false =>
      rw [validateKeys, if_pos hc]
      constructor
      · intro h; cases h
      · intro h
        have hk := h key (List.mem_cons_self key rest)
        rw [hk] at hc; cases hc
    | true =>
      rw [validateKeys, if_neg (by rw [hc]; exact fun h => Bool.noConfusion h)]
      rw [ih]
      constructor
      · intro h k hk
        rcases List.mem_cons.mp hk with h1 | h1
        · rw [h1]; exact hc
        · exact h k h1
      · intro h k hk
        exact h k (List.mem_cons_of_mem key hk)

theorem validateKeys_err (validKeys keys : List String) (key : String)
    (hmem : key ∈ keys) (hbad : validKeys.contains key = false)
    (hpre : ∀ k ∈ keys, k ≠ key → validKeys.contains k = true) :
    validateKeys validKeys keys =
      Except.error ("unrecognized key \"" ++ key ++ "\". Valid keys are: " ++ String.intercalate "," validKeys) := by
  induction keys with
  | nil => cases hmem
  | cons k rest ih =>
    by_cases hk : k = key
    · rw [hk, validateKeys, if_pos hbad]
    · have hkok : validKeys.contains k = true := hpre k (List.mem_cons_self k rest) hk
      rw [validateKeys, if_neg (by rw [hkok]; exact fun h => Bool.noConfusion h)]
      refine ih ?_ ?_
      · rcases List.mem_cons.mp hmem with h1 | h1
        · exact absurd h1.symm hk
        · exact h1
      · exact fun kk hkk hne => hpre kk (List.mem_cons_of_mem k hkk) hne

theorem validateKeys_sub (validKeys keys keys' : List String)
    (hsub : ∀ k ∈ keys', k ∈ keys) (h : validateKeys validKeys keys = Except.ok ()) :
    validateKeys validKeys keys' = Except.ok () := by
  rw [validateKeys_ok_iff] at h ⊢
  exact fun k hk => h k (hsub k hk)

theorem forEachE_ok_iff (xs : List String) (f : String → Except String Unit) :
    forEachE xs f = Except.ok () ↔ ∀ x ∈ xs, f x = Except.ok () := by
  induction xs with
  | nil => simp [forEachE]
  | cons x rest ih =>
    constructor
    · intro h
      obtain ⟨a, ha, hrest⟩ := exbind_eq_ok h
      intro y hy
      rcases List.mem_cons.mp hy with h1 | h1
      · subst h1; cases a; exact ha
      · exact (ih.mp hrest) y h1
    · intro h
      have hx : f x = Except.ok () := h x (List.mem_cons_self x rest)
      show (f x >>= fun _ => forEachE rest f) = Except.ok ()
      rw [hx, exbind_ok]
      exact ih.mpr fun y hy => h y (List.mem_cons_of_mem x hy)

theorem forEachE_err (xs : List String) (f : String → Except String Unit) (x : String)
    (m : String) (hmem : x ∈ xs) (hx : f x = Except.error m)
    (hpre : ∀ y ∈ xs, y ≠ x → f y = Except.ok ()) :
    forEachE xs f = Except.error m := by
  induction xs with
  | nil => cases hmem
  | cons y rest ih =>
    by_cases hyx : y = x
    · subst hyx
      show (f y >>= fun _ => forEachE rest f) = Except.error m
      rw [hx, exbind_error]
    · have hy : f y = Except.ok () := hpre y (List.mem_cons_self y rest) hyx
      show (f y >>= fun _ => forEachE rest f) = Except.error m
      rw [hy, exbind_ok]
      exact ih (by rcases List.mem_cons.mp hmem with h1 | h1; exact absurd h1.symm hyx; exact h1)
        (fun z hz hne => hpre z (List.mem_cons_of_mem y hz) hne)

theorem jsKeys_of_truthy {v : JVal} (h : truthy v = true) :
    jsKeys v = Except.ok (forInKeys v) := by
  cases v <;> first | rfl | (cases h)

theorem jsKeys_obj (fields : List (String × JVal)) :
    jsKeys (JVal.obj fields) = Except.ok (forInKeys (JVal.obj fields)) := rfl

theorem jsKeys_ok_eq {v : JVal} {l : List String} (h : jsKeys v = Except.ok l) :
    l = forInKeys v := by
  cases v <;> simp [jsKeys] at h <;> exact h.symm

/-- Inversion of a successful structural pass: every sequentially executed
check must have succeeded. -/
theorem structure_ok_parts {config : JVal} (h : validateConfigFileStructure config = Except.ok ()) :
    truthy config = true ∧ isObject config = true ∧
    validateKeys validSectionKeys (forInKeys config) = Except.ok () ∧
    (forInKeys (jget config "chains")).contains Chain.Ethereum = true ∧
    validateKeys validChainKeys (forInKeys (jget config "chains")) = Except.ok () ∧
    checkChainEntries (jget config "chains") = Except.ok () ∧
    jsKeys (jget config "chains") = Except.ok (forInKeys (jget config "chains")) ∧
    jsKeys (jget config "tokens") = Except.ok (forInKeys (jget config "tokens")) ∧
    validateKeys validTokenKeys (enabledTokensOf config) = Except.ok () ∧
    jsKeys (jget config "watchers") = Except.ok (forInKeys (jget config "watchers")) ∧
    validateKeys validWatcherKeys (forInKeys (jget config "watchers")) = Except.ok () ∧
    (truthy (jget config "keystore") && truthy (jget config "signer")) = false ∧
    checkDb (jget config "db") = Except.ok () ∧
    checkLogging (jget config "logging") = Except.ok () ∧
    checkKeystore (jget config "keystore") = Except.ok () ∧
    checkSigner (jget config "signer") = Except.ok () ∧
    checkMetrics (jget config "metrics") = Except.ok () ∧
    checkAddresses (jget config "addresses") = Except.ok () ∧
    checkRoutes (jget config "routes") (forInKeys (jget config "chains")) = Except.ok () ∧
    checkFees (jget config "fees") (jget config "routes") (forInKeys (jget config "chains")) (enabledTokensOf config) = Except.ok () ∧
    checkCommitTransfers (jget config "commitTransfers") (jget config "routes") (forInKeys (jget config "chains")) (enabledTokensOf config) = Except.ok () ∧
    checkBonders (jget config "bonders") (forInKeys (jget config "chains")) (enabledTokensOf config) = Except.ok () ∧
    checkVault (jget config "vault") = Except.ok () ∧
    checkBlocklist (jget config "blocklist") = Except.ok () := by
  rw [validateConfigFileStructure] at h
  cases h1 : truthy config with
  | false => rw [h1] at h; simp at h
  | true =>
  rw [h1] at h
  cases h2 : isObject config with
  | false => rw [h2] at h; simp at h
  | true =>
  rw [h2] at h
  rw [if_neg (fun hh => Bool.noConfusion hh)] at h
  rw [validateStructureBody] at h
  obtain ⟨sectionKeys, hsk, h⟩ := exbind_eq_ok h
  have hske := jsKeys_ok_eq hsk
  subst hske
  obtain ⟨u, h3, h⟩ := exbind_eq_ok h
  cases u
  obtain ⟨enabledChainsV, hec, h⟩ := exbind_eq_ok h
  have hece := jsKeys_ok_eq hec
  subst hece
  cases h4 : (forInKeys (jget config "chains")).contains Chain.Ethereum with
  | false => rw [h4] at h; simp at h
  | true =>
  rw [h4] at h
  rw [if_neg (fun hh => Bool.noConfusion hh)] at h
  obtain ⟨u, h5, h⟩ := exbind_eq_ok h
  cases u
  obtain ⟨u, h6, h⟩ := exbind_eq_ok h
  cases u
  obtain ⟨tokenSectionKeys, htk, h⟩ := exbind_eq_ok h
  have htke := jsKeys_ok_eq htk
  subst htke
  obtain ⟨u, h7, h⟩ := exbind_eq_ok h
  cases u
  obtain ⟨watcherKeys, hwk, h⟩ := exbind_eq_ok h
  have hwke := jsKeys_ok_eq hwk
  subst hwke
  obtain ⟨u, h8, h⟩ := exbind_eq_ok h
  cases u
  cases h9 : (truthy (jget config "keystore") && truthy (jget config "signer")) with
  | true => rw [h9] at h; simp at h
  | false =>
  rw [h9] at h
  rw [if_neg (fun hh => Bool.noConfusion hh)] at h
  obtain ⟨u, h10, h⟩ := exbind_eq_ok h
  cases u
  obtain ⟨u, h11, h⟩ := exbind_eq_ok h
  cases u
  obtain ⟨u, h12, h⟩ := exbind_eq_ok h
  cases u
  obtain ⟨u, h13, h⟩ := exbind_eq_ok h
  cases u
  obtain ⟨u, h14, h⟩ := exbind_eq_ok h
  cases u
  obtain ⟨u, h15, h⟩ := exbind_eq_ok h
  cases u
  obtain ⟨u, h16, h⟩ := exbind_eq_ok h
  cases u
  obtain ⟨u, h17, h⟩ := exbind_eq_ok h
  cases u
  obtain ⟨u, h18, h⟩ := exbind_eq_ok h
  cases u
  obtain ⟨u, h19, h⟩ := exbind_eq_ok h
  cases u
  obtain ⟨u, h20, h⟩ := exbind_eq_ok h
  cases u
  exact ⟨rfl, rfl, h3, rfl, h5, h6, hec, htk, h7, hwk, h8, rfl, h10, h11, h12,
    h13, h14, h15, h16, h17, h18, h19, h20, h⟩

/-- Inversion of a successful value pass. -/
theorem values_ok_parts {enabledTokens : List String} {checksum : String → Bool} {config : JVal}
    (h : validateConfigValues enabledTokens checksum config = Except.ok ()) :
    truthy config = true ∧ isObject config = true ∧
    (∀ slug ∈ forInKeys (jget config "networks"),
      validateNetworkEntry slug (jget (jget config "networks") slug) = Except.ok ()) ∧
    valuesCommitTransfers enabledTokens config = Except.ok () ∧
    valuesBonders enabledTokens checksum config = Except.ok () ∧
    valuesVault config = Except.ok () ∧
    valuesBlocklist config = Except.ok () := by
  rw [validateConfigValues] at h
  cases h1 : truthy config with
  | false => rw [h1] at h; simp at h
  | true =>
  rw [h1] at h
  cases h2 : isObject config with
  | false => rw [h2] at h; simp at h
  | true =>
  rw [h2] at h
  rw [if_neg (fun hh => Bool.noConfusion hh)] at h
  obtain ⟨u, h3, h⟩ := exbind_eq_ok h
  cases u
  obtain ⟨u, h4, h⟩ := exbind_eq_ok h
  cases u
  obtain ⟨u, h5, h⟩ := exbind_eq_ok h
  cases u
  obtain ⟨u, h6, h⟩ := exbind_eq_ok h
  cases u
  exact ⟨rfl, rfl, (forEachE_ok_iff _ _).mp h3, h4, h5, h6, h⟩

theorem ok_of_if_truthy {b : Bool} {m : String}
    (h : (if b = false then Except.error m else Except.ok ()) = Except.ok ()) : b = true := by
  cases b with
  | false => rw [if_pos rfl] at h; cases h
  | true => rfl

theorem truthy_not_undefined {v : JVal} (h : truthy v = true) : isUndefined v = false := by
  cases v <;> first | rfl | cases h

theorem jhas_of_truthy {v : JVal} {k : String} (h : truthy (jget v k) = true) : jhas v k = true := by
  rw [jhas, truthy_not_undefined h]; rfl

theorem jhas_false_eq_undefined {v : JVal} {k : String} (h : jhas v k = false) : jget v k = JVal.undefined := by
  rw [jhas] at h
  cases hj : jget v k <;> rw [hj] at h <;> first | rfl | cases h

theorem isStr_eq {v : JVal} (h : isStr v = true) : v = JVal.str (strVal v) := by
  cases v <;> first | rfl | cases h

theorem isObject_obj {v : JVal} (h : isObject v = true) : ∃ fs, v = JVal.obj fs := by
  cases v <;> first | exact ⟨_, rfl⟩ | cases h

theorem forInKeys_of_falsy {v : JVal} (h : truthy v = false) : forInKeys v = [] := by
  cases v with
  | undefined => rfl
  | null => rfl
  | bool b => rfl
  | num n => rfl
  | str s =>
    have hs : s = "" := by simpa [truthy] using h
    subst hs; rfl
  | obj fs => cases h

theorem truthy_of_mem_forInKeys {v : JVal} {k : String} (h : k ∈ forInKeys v) : truthy v = true := by
  cases ht : truthy v with
  | false => rw [forInKeys_of_falsy ht] at h; cases h
  | true => rfl

theorem truthy_of_jget_keys {v : JVal} {k : String} (h : forInKeys (jget v k) ≠ []) :
    truthy v = true := by
  cases v with
  | undefined => exact absurd rfl h
  | null => exact absurd rfl h
  | bool b => exact absurd rfl h
  | num n => exact absurd rfl h
  | obj fs => rfl
  | str s =>
    by_cases hs : s = ""
    · subst hs; exact absurd rfl h
    · simp [truthy, hs]

theorem validateKeys_err_find (validKeys keys : List String) (key : String)
    (h : keys.find? (fun k => !(validKeys.contains k)) = some key) :
    validateKeys validKeys keys =
      Except.error ("unrecognized key \"" ++ key ++ "\". Valid keys are: " ++ String.intercalate "," validKeys) := by
  induction keys with
  | nil => simp [List.find?] at h
  | cons k rest ih =>
    cases hc : validKeys.contains k with
    | false =>
      simp only [List.find?_cons, hc, Bool.not_false, if_true] at h
      have hk : k = key := by injection h
      rw [hk] at hc
      rw [hk, validateKeys, if_pos hc]
    | true =>
      simp only [List.find?_cons, hc, Bool.not_true, if_false] at h
      rw [validateKeys, if_neg (by rw [hc]; exact fun hh => Bool.noConfusion hh)]
      exact ih h

/-- C8: `validateKeys` succeeds iff every found key appears in the allowed
list, and on the first disallowed key in found-list order it fails with an
error naming that key and the full allowed list. -/
theorem C8_validateKeys_contract :
    (∀ validKeys keys : List String,
      validateKeys validKeys keys = Except.ok () ↔ ∀ k ∈ keys, validKeys.contains k = true) ∧
    (∀ (validKeys keys : List String) (key : String),
      keys.find? (fun k => !(validKeys.contains k)) = some key →
      validateKeys validKeys keys =
        Except.error ("unrecognized key \"" ++ key ++ "\". Valid keys are: " ++ String.intercalate "," validKeys)) :=
  ⟨validateKeys_ok_iff, validateKeys_err_find⟩

theorem C8_validateKeys_contract_witness :
    validateKeys ["location"] ["location", "pass"] =
      Except.error "unrecognized key \"pass\". Valid keys are: location" ∧
    validateKeys ["location"] ["location"] = Except.ok () :=
  ⟨C8_validateKeys_contract.2 ["location"] ["location", "pass"] "pass" rfl,
   (C8_validateKeys_contract.1 ["location"] ["location"]).mpr (by decide)⟩

/-- A structurally valid configuration: the §8 scenario of the spec
(chains Ethereum and Optimism, token USDC enabled, a route
Ethereum → Optimism, and a fee entry `fees.USDC.optimism`). -/
def cfgBasic : JVal := JVal.obj [
  ("chains", JVal.obj [(Chain.Ethereum, JVal.obj []), (Chain.Optimism, JVal.obj [])]),
  ("tokens", JVal.obj [("USDC", JVal.bool true)]),
  ("watchers", JVal.obj []),
  ("routes", JVal.obj [(Chain.Ethereum, JVal.obj [(Chain.Optimism, JVal.bool true)])]),
  ("fees", JVal.obj [("USDC", JVal.obj [(Chain.Optimism, JVal.num 1)])])]

/-- C5: the structural pass never accepts a configuration whose `chains`
keys do not include the base settlement chain, and rejects every
configuration whose `chains` keys omit it. -/
theorem C5_base_chain_required :
    (∀ config : JVal, validateConfigFileStructure config = Except.ok () →
      (forInKeys (jget config "chains")).contains Chain.Ethereum = true) ∧
    (∀ config : JVal, (forInKeys (jget config "chains")).contains Chain.Ethereum = false →
      exOk (validateConfigFileStructure config) = false) := by
  constructor
  · intro config h
    exact (structure_ok_parts h).2.2.2.1
  · intro config hno
    cases hv : validateConfigFileStructure config with
    | error m => rfl
    | ok u =>
      cases u
      have := (structure_ok_parts hv).2.2.2.1
      rw [this] at hno
      cases hno

theorem C5_base_chain_required_witness :
    validateConfigFileStructure cfgBasic = Except.ok () ∧
    (forInKeys (jget cfgBasic "chains")).contains Chain.Ethereum = true :=
  ⟨rfl, C5_base_chain_required.1 cfgBasic rfl⟩

/-- C4: a configuration with both a (truthy) `keystore` section and a
(truthy) `signer` section — the sense in which a section is "present"
throughout the validator — is never accepted by the structural pass. -/
theorem C4_keystore_signer_exclusive (config : JVal)
    (hk : truthy (jget config "keystore") = true)
    (hs : truthy (jget config "signer") = true) :
    exOk (validateConfigFileStructure config) = false := by
  cases hv : validateConfigFileStructure config with
  | error m => rfl
  | ok u =>
    cases u
    obtain ⟨-, -, -, -, -, -, -, -, -, -, -, hx, -, -, -, -, -, -, -, -, -, -, -, -⟩ :=
      structure_ok_parts hv
    rw [hk, hs] at hx
    cases hx

/-- A configuration declaring both credential sections. -/
def cfgBothCreds : JVal := JVal.obj [
  ("chains", JVal.obj [(Chain.Ethereum, JVal.obj [])]),
  ("tokens", JVal.obj []),
  ("watchers", JVal.obj []),
  ("keystore", JVal.obj [("location", JVal.str "x")]),
  ("signer", JVal.obj [("type", JVal.str "kms")])]

theorem C4_keystore_signer_exclusive_witness :
    exOk (validateConfigFileStructure cfgBothCreds) = false :=
  C4_keystore_signer_exclusive cfgBothCreds rfl rfl

/-- C10: the structural pass unconditionally enumerates `config.chains`,
`config.tokens` and `config.watchers` (`Object.keys` throws on an absent
section), so a configuration lacking any of those three sections is always
rejected. -/
theorem C10_required_sections (config : JVal)
    (h : jhas config "chains" = false ∨ jhas config "tokens" = false ∨
      jhas config "watchers" = false) :
    exOk (validateConfigFileStructure config) = false := by
  cases hv : validateConfigFileStructure config with
  | error m => rfl
  | ok u =>
    cases u
    obtain ⟨-, -, -, -, -, -, hc, ht, -, hw, -⟩ := structure_ok_parts hv
    rcases h with h | h | h
    · rw [jhas_false_eq_undefined h] at hc
      cases hc
    · rw [jhas_false_eq_undefined h] at ht
      cases ht
    · rw [jhas_false_eq_undefined h] at hw
      cases hw

/-- A configuration with `chains` and `watchers` but no `tokens` section. -/
def cfgNoTokens : JVal := JVal.obj [
  ("chains", JVal.obj [(Chain.Ethereum, JVal.obj [])]),
  ("watchers", JVal.obj [])]

theorem C10_required_sections_witness :
    exOk (validateConfigFileStructure cfgNoTokens) = false :=
  C10_required_sections cfgNoTokens (Or.inr (Or.inl rfl))

/-- Inversion of a successful `commitTransfers` structural check when
`minThresholdAmount` has keys: every enabled token has a truthy threshold
matrix with truthy entries for every non-Ethereum-sourced route. -/
theorem checkCT_ok_entries {ct routes : JVal} {enabledChains enabledTokens : List String}
    (h : checkCommitTransfers ct routes enabledChains enabledTokens = Except.ok ())
    (hne : (forInKeys (jget ct "minThresholdAmount")).length ≠ 0) :
    ∀ token ∈ enabledTokens,
      truthy (jget (jget ct "minThresholdAmount") token) = true ∧
      ∀ sourceChain ∈ forInKeys routes, sourceChain ≠ Chain.Ethereum →
        truthy (jget (jget (jget ct "minThresholdAmount") token) sourceChain) = true ∧
        ∀ destinationChain ∈ forInKeys (jget routes sourceChain),
          truthy (jget (jget (jget (jget ct "minThresholdAmount") token) sourceChain) destinationChain) = true := by
  have htct : truthy ct = true :=
    truthy_of_jget_keys (fun hl => hne (by rw [hl]; rfl))
  rw [checkCommitTransfers, htct, if_pos rfl, jsKeys_of_truthy htct, exbind_ok] at h
  obtain ⟨u, hvk1, h⟩ := exbind_eq_ok h
  cases u
  obtain ⟨tokens, hmt, h⟩ := exbind_eq_ok h
  have hmte := jsKeys_ok_eq hmt
  subst hmte
  rw [if_pos hne] at h
  obtain ⟨u, hvk2, h⟩ := exbind_eq_ok h
  cases u
  intro token htok
  have hf := (forEachE_ok_iff _ _).mp h token htok
  cases hm1 : truthy (jget (jget ct "minThresholdAmount") token) with
  | false => rw [hm1, if_pos rfl] at hf; cases hf
  | true =>
  rw [hm1, if_neg (fun hh => Bool.noConfusion hh)] at hf
  obtain ⟨chains, hc, hf⟩ := exbind_eq_ok hf
  obtain ⟨u, hvk3, hf⟩ := exbind_eq_ok hf
  cases u
  refine ⟨rfl, ?_⟩
  intro sourceChain hsc hsne
  have hg := (forEachE_ok_iff _ _).mp hf sourceChain hsc
  rw [if_neg hsne] at hg
  cases hm2 : truthy (jget (jget (jget ct "minThresholdAmount") token) sourceChain) with
  | false => rw [hm2, if_pos rfl] at hg; cases hg
  | true =>
  rw [hm2, if_neg (fun hh => Bool.noConfusion hh)] at hg
  refine ⟨rfl, ?_⟩
  intro destinationChain hdc
  exact ok_of_if_truthy ((forEachE_ok_iff _ _).mp hg destinationChain hdc)

/-- A structurally valid configuration with a populated
`commitTransfers.minThresholdAmount` matrix, routes in both directions, and
no threshold entry under the Ethereum-sourced route. -/
def cfgThresholds : JVal := JVal.obj [
  ("chains", JVal.obj [(Chain.Ethereum, JVal.obj []), (Chain.Optimism, JVal.obj [])]),
  ("tokens", JVal.obj [("USDC", JVal.bool true)]),
  ("watchers", JVal.obj []),
  ("routes", JVal.obj [
    (Chain.Ethereum, JVal.obj [(Chain.Optimism, JVal.bool true)]),
    (Chain.Optimism, JVal.obj [(Chain.Ethereum, JVal.bool true)])]),
  ("fees", JVal.obj [("USDC", JVal.obj [(Chain.Optimism, JVal.num 1), (Chain.Ethereum, JVal.num 1)])]),
  ("commitTransfers", JVal.obj [("minThresholdAmount", JVal.obj [
    ("USDC", JVal.obj [(Chain.Optimism, JVal.obj [(Chain.Ethereum, JVal.num 5)])])])])]

/-- C2: when `commitTransfers.minThresholdAmount` is non-empty, a
successful structural pass guarantees an entry
`minThresholdAmount[token][sourceChain][destinationChain]` for every
enabled token and every route whose source chain is not Ethereum (so its
absence always fails); routes sourced at Ethereum are exempt, witnessed by
an accepted configuration whose threshold matrix has no entry under the
Ethereum-sourced route. -/
theorem C2_thresholds_required :
    (∀ config : JVal, validateConfigFileStructure config = Except.ok () →
      (forInKeys (jget (jget config "commitTransfers") "minThresholdAmount")).length ≠ 0 →
      ∀ token ∈ enabledTokensOf config,
        ∀ sourceChain ∈ forInKeys (jget config "routes"), sourceChain ≠ Chain.Ethereum →
          ∀ destinationChain ∈ forInKeys (jget (jget config "routes") sourceChain),
            isUndefined (jget (jget (jget (jget (jget config "commitTransfers") "minThresholdAmount") token) sourceChain) destinationChain) = false) ∧
    (validateConfigFileStructure cfgThresholds = Except.ok () ∧
      (forInKeys (jget (jget cfgThresholds "commitTransfers") "minThresholdAmount")).length ≠ 0 ∧
      Chain.Ethereum ∈ forInKeys (jget cfgThresholds "routes") ∧
      isUndefined (jget (jget (jget (jget cfgThresholds "commitTransfers") "minThresholdAmount") "USDC") Chain.Ethereum) = true) := by
  constructor
  · intro config h hne token htok sourceChain hsc hsne destinationChain hdc
    obtain ⟨-, -, -, -, -, -, -, -, -, -, -, -, -, -, -, -, -, -, -, -, hct, -, -, -⟩ :=
      structure_ok_parts h
    have := ((checkCT_ok_entries hct hne token htok).2 sourceChain hsc hsne).2 destinationChain hdc
    exact truthy_not_undefined this
  · exact ⟨rfl, by decide, by decide, rfl⟩

theorem C2_thresholds_required_witness :
    isUndefined (jget (jget (jget (jget (jget cfgThresholds "commitTransfers") "minThresholdAmount") "USDC") Chain.Optimism) Chain.Ethereum) = false :=
  C2_thresholds_required.1 cfgThresholds rfl (by decide) "USDC" (by decide)
    Chain.Optimism (by decide) (by decide) Chain.Ethereum (by decide)

/-- Inversion of a successful per-chain network check: the entry carries a
non-empty string `rpcUrl` that parses as a URL with a host and an HTTP or
HTTPS scheme. -/
theorem networkEntry_ok {chainSlug : String} {chain : JVal}
    (h : validateNetworkEntry chainSlug chain = Except.ok ()) :
    ∃ u, jget chain "rpcUrl" = JVal.str u ∧ u ≠ "" ∧
      ∃ parsed, parseURL u = some parsed ∧ parsed.host ≠ "" ∧
        ["http:", "https:"].contains parsed.protocol = true := by
  rw [validateNetworkEntry] at h
  cases h1 : truthy chain with
  | false => rw [h1, if_pos rfl] at h; cases h
  | true =>
  rw [h1, if_neg (fun hh => Bool.noConfusion hh)] at h
  cases h2 : truthy (jget chain "rpcUrl") with
  | false => rw [h2, if_pos rfl] at h; cases h
  | true =>
  rw [h2, if_neg (fun hh => Bool.noConfusion hh)] at h
  cases h3 : isStr (jget chain "rpcUrl") with
  | false => rw [h3, if_pos rfl] at h; cases h
  | true =>
  rw [h3, if_neg (fun hh => Bool.noConfusion hh)] at h
  obtain ⟨u', hm, h⟩ := exbind_eq_ok h
  refine ⟨strVal (jget chain "rpcUrl"), isStr_eq h3, ?_, ?_⟩
  · have := isStr_eq h3
    rw [this] at h2
    intro he
    rw [he] at h2
    cases h2
  · cases hp : parseURL (strVal (jget chain "rpcUrl")) with
    | none => rw [hp] at hm; cases hm
    | some parsed =>
      rw [hp] at hm
      have hm2 : (if parsed.protocol = "" ∨ parsed.host = "" ∨ ["http:", "https:"].contains parsed.protocol = false then
          Except.error ("rpc url \"" ++ strVal (jget chain "rpcUrl") ++ "\" is invalid")
        else Except.ok ()) = Except.ok u' := hm
      by_cases hc : parsed.protocol = "" ∨ parsed.host = "" ∨ ["http:", "https:"].contains parsed.protocol = false
      · rw [if_pos hc] at hm2; cases hm2
      · push_neg at hc
        refine ⟨parsed, rfl, hc.2.1, ?_⟩
        cases hcp : ["http:", "https:"].contains parsed.protocol with
        | false => exact absurd hcp hc.2.2
        | true => rfl

/-- Part 1 of C6 as a reusable fact: a successful value pass forces every
network entry's `rpcUrl` to be a non-empty string parsing as an HTTP(S) URL
with a host. -/
theorem values_ok_rpcUrl (enabledTokens : List String) (checksum : String → Bool) (config : JVal)
    (h : validateConfigValues enabledTokens checksum config = Except.ok ()) :
    ∀ chainSlug ∈ forInKeys (jget config "networks"),
      ∃ u, jget (jget (jget config "networks") chainSlug) "rpcUrl" = JVal.str u ∧ u ≠ "" ∧
        ∃ parsed, parseURL u = some parsed ∧ parsed.host ≠ "" ∧
          ["http:", "https:"].contains parsed.protocol = true := by
  intro chainSlug hslug
  exact networkEntry_ok ((values_ok_parts h).2.2.1 chainSlug hslug)

/-- C6: the value pass requires, for every chain in the resolved networks
mapping, a non-empty string `rpcUrl` parsing as a URL with a host and an
`http`/`https` scheme; an `rpcUrl` of `ftp://host` therefore always fails
the pass, while an entry whose `rpcUrl` is `https://host` passes the
per-chain check. -/
theorem C6_rpcUrl_validation :
    (∀ (enabledTokens : List String) (checksum : String → Bool) (config : JVal),
      validateConfigValues enabledTokens checksum config = Except.ok () →
      ∀ chainSlug ∈ forInKeys (jget config "networks"),
        ∃ u, jget (jget (jget config "networks") chainSlug) "rpcUrl" = JVal.str u ∧ u ≠ "" ∧
          ∃ parsed, parseURL u = some parsed ∧ parsed.host ≠ "" ∧
            ["http:", "https:"].contains parsed.protocol = true) ∧
    (∀ (enabledTokens : List String) (checksum : String → Bool) (config : JVal),
      ∀ chainSlug ∈ forInKeys (jget config "networks"),
        jget (jget (jget config "networks") chainSlug) "rpcUrl" = JVal.str "ftp://host" →
        exOk (validateConfigValues enabledTokens checksum config) = false) ∧
    (∀ chainSlug : String,
      validateNetworkEntry chainSlug (JVal.obj [("rpcUrl", JVal.str "https://host")]) = Except.ok ()) := by
  refine ⟨values_ok_rpcUrl, ?_, fun _ => rfl⟩
  intro enabledTokens checksum config chainSlug hslug hftp
  cases hv : validateConfigValues enabledTokens checksum config with
  | error m => rfl
  | ok u =>
    cases u
    obtain ⟨w, hw, -, parsed, hp, -, hcp⟩ :=
      values_ok_rpcUrl enabledTokens checksum config hv chainSlug hslug
    rw [hftp] at hw
    have hwe : "ftp://host" = w := by injection hw
    rw [← hwe] at hp
    rw [show parseURL "ftp://host" = some ⟨"ftp:", "host"⟩ from rfl] at hp
    have hpe : URLParts.mk "ftp:" "host" = parsed := by injection hp
    rw [← hpe] at hcp
    exact Bool.noConfusion hcp

/-- A resolved configuration whose only network entry uses an `ftp` RPC
URL. -/
def cfgFtp : JVal := JVal.obj [
  ("networks", JVal.obj [(Chain.Ethereum, JVal.obj [("rpcUrl", JVal.str "ftp://host")])])]

theorem C6_rpcUrl_validation_witness :
    exOk (validateConfigValues [] (fun _ => false) cfgFtp) = false :=
  C6_rpcUrl_validation.2.1 [] (fun _ => false) cfgFtp Chain.Ethereum (by decide) rfl

/-- Inversion of a successful vault entry value check. -/
theorem valuesVaultEntry_ok {entry : JVal} (h : valuesVaultEntry entry = Except.ok ()) :
    isBool (jget entry "autoDeposit") = true ∧
    (truthy (jget entry "autoDeposit") = true →
      isNum (jget entry "depositThresholdAmount") = true ∧
      isNum (jget entry "depositAmount") = true) ∧
    isBool (jget entry "autoWithdraw") = true ∧
    (isStr (jget entry "strategy") &&
      ["yearn", "aave"].contains (strVal (jget entry "strategy"))) = true := by
  rw [valuesVaultEntry] at h
  cases h1 : isBool (jget entry "autoDeposit") with
  | false => rw [h1, if_pos rfl] at h; cases h
  | true =>
  rw [h1, if_neg (fun hh => Bool.noConfusion hh)] at h
  obtain ⟨u, hdep, h⟩ := exbind_eq_ok h
  cases u
  refine ⟨rfl, ?_, ?_, ?_⟩
  · intro had
    rw [had, if_pos rfl] at hdep
    cases h2 : isNum (jget entry "depositThresholdAmount") with
    | false => rw [h2, if_pos rfl] at hdep; cases hdep
    | true =>
    rw [h2, if_neg (fun hh => Bool.noConfusion hh)] at hdep
    cases h3 : isNum (jget entry "depositAmount") with
    | false => rw [h3, if_pos rfl] at hdep; cases hdep
    | true => exact ⟨rfl, rfl⟩
  · cases h4 : isBool (jget entry "autoWithdraw") with
    | false => rw [h4, if_pos rfl] at h; cases h
    | true => rfl
  · cases h4 : isBool (jget entry "autoWithdraw") with
    | false => rw [h4, if_pos rfl] at h; cases h
    | true =>
    rw [h4, if_neg (fun hh => Bool.noConfusion hh)] at h
    cases h5 : (isStr (jget entry "strategy") &&
        ["yearn", "aave"].contains (strVal (jget entry "strategy"))) with
    | false => rw [h5, if_pos rfl] at h; cases h
    | true => rfl

/-- The §8 scenario for the vault: `autoDeposit` enabled but
`depositAmount` missing. -/
def cfgVaultMissing : JVal := JVal.obj [
  ("vault", JVal.obj [("USDC", JVal.obj [(Chain.Optimism, JVal.obj [
    ("autoDeposit", JVal.bool true),
    ("depositThresholdAmount", JVal.num 1),
    ("autoWithdraw", JVal.bool false),
    ("strategy", JVal.str "yearn")])])])]

/-- A resolved configuration whose single vault entry satisfies every
value check. -/
def cfgVaultOk : JVal := JVal.obj [
  ("vault", JVal.obj [("USDC", JVal.obj [(Chain.Optimism, JVal.obj [
    ("autoDeposit", JVal.bool true),
    ("depositThresholdAmount", JVal.num 1),
    ("depositAmount", JVal.num 2),
    ("autoWithdraw", JVal.bool false),
    ("strategy", JVal.str "yearn")])])])]

/-- C7: a successful value pass forces every vault token/chain entry to
have a boolean `autoDeposit` (with numeric `depositThresholdAmount` and
`depositAmount` whenever it is true), a boolean `autoWithdraw`, and a
strategy from the closed set `{yearn, aave}`; in particular the entry with
`autoDeposit = true` and `depositAmount` missing fails the pass with an
error naming `depositAmount`. -/
theorem C7_vault_value_checks :
    (∀ (enabledTokens : List String) (checksum : String → Bool) (config : JVal),
      validateConfigValues enabledTokens checksum config = Except.ok () →
      ∀ tokenSymbol ∈ forInKeys (jget config "vault"),
        ∀ chain ∈ forInKeys (jget (jget config "vault") tokenSymbol),
          isBool (jget (jget (jget (jget config "vault") tokenSymbol) chain) "autoDeposit") = true ∧
          (truthy (jget (jget (jget (jget config "vault") tokenSymbol) chain) "autoDeposit") = true →
            isNum (jget (jget (jget (jget config "vault") tokenSymbol) chain) "depositThresholdAmount") = true ∧
            isNum (jget (jget (jget (jget config "vault") tokenSymbol) chain) "depositAmount") = true) ∧
          isBool (jget (jget (jget (jget config "vault") tokenSymbol) chain) "autoWithdraw") = true ∧
          (isStr (jget (jget (jget (jget config "vault") tokenSymbol) chain) "strategy") &&
            ["yearn", "aave"].contains (strVal (jget (jget (jget (jget config "vault") tokenSymbol) chain) "strategy"))) = true) ∧
    validateConfigValues [] (fun _ => true) cfgVaultMissing =
      Except.error "depositAmount should be a number" := by
  refine ⟨?_, rfl⟩
  intro enabledTokens checksum config h tokenSymbol hts chain hc
  have hvv := (values_ok_parts h).2.2.2.2.2.1
  have htv : truthy (jget config "vault") = true :=
    truthy_of_mem_forInKeys hts
  rw [valuesVault, htv, if_pos rfl] at hvv
  have h1 := (forEachE_ok_iff _ _).mp hvv tokenSymbol hts
  have h2 := (forEachE_ok_iff _ _).mp h1 chain hc
  exact valuesVaultEntry_ok h2

theorem C7_vault_value_checks_witness :
    validateConfigValues [] (fun _ => true) cfgVaultOk = Except.ok () ∧
    (isBool (jget (jget (jget (jget cfgVaultOk "vault") "USDC") Chain.Optimism) "autoDeposit") = true ∧
      (truthy (jget (jget (jget (jget cfgVaultOk "vault") "USDC") Chain.Optimism) "autoDeposit") = true →
        isNum (jget (jget (jget (jget cfgVaultOk "vault") "USDC") Chain.Optimism) "depositThresholdAmount") = true ∧
        isNum (jget (jget (jget (jget cfgVaultOk "vault") "USDC") Chain.Optimism) "depositAmount") = true) ∧
      isBool (jget (jget (jget (jget cfgVaultOk "vault") "USDC") Chain.Optimism) "autoWithdraw") = true ∧
      (isStr (jget (jget (jget (jget cfgVaultOk "vault") "USDC") Chain.Optimism) "strategy") &&
        ["yearn", "aave"].contains (strVal (jget (jget (jget (jget cfgVaultOk "vault") "USDC") Chain.Optimism) "strategy"))) = true) :=
  ⟨rfl, C7_vault_value_checks.1 [] (fun _ => true) cfgVaultOk rfl "USDC" (by decide)
    Chain.Optimism (by decide)⟩

/-- An otherwise-valid configuration whose `fees.USDC.optimism` entry is an
arbitrary value `v`. -/
def c9FeeChainCfg (v : JVal) : JVal := JVal.obj [
  ("chains", JVal.obj [(Chain.Ethereum, JVal.obj []), (Chain.Optimism, JVal.obj [])]),
  ("tokens", JVal.obj [("USDC", JVal.bool true)]),
  ("watchers", JVal.obj []),
  ("routes", JVal.obj [(Chain.Ethereum, JVal.obj [(Chain.Optimism, JVal.bool true)])]),
  ("fees", JVal.obj [("USDC", JVal.obj [(Chain.Optimism, v)])])]

/-- An otherwise-valid routeless configuration whose `fees.USDC` entry is an
arbitrary value `v`. -/
def c9FeeTokenCfg (v : JVal) : JVal := JVal.obj [
  ("chains", JVal.obj [(Chain.Ethereum, JVal.obj [])]),
  ("tokens", JVal.obj [("USDC", JVal.bool true)]),
  ("watchers", JVal.obj []),
  ("fees", JVal.obj [("USDC", v)])]

/-- An otherwise-valid configuration whose
`commitTransfers.minThresholdAmount.USDC.optimism.ethereum` entry is an
arbitrary value `v`, with a matching route `optimism → ethereum`. -/
def c9ThresholdCfg (v : JVal) : JVal := JVal.obj [
  ("chains", JVal.obj [(Chain.Ethereum, JVal.obj []), (Chain.Optimism, JVal.obj [])]),
  ("tokens", JVal.obj [("USDC", JVal.bool true)]),
  ("watchers", JVal.obj []),
  ("routes", JVal.obj [(Chain.Optimism, JVal.obj [(Chain.Ethereum, JVal.bool true)])]),
  ("commitTransfers", JVal.obj [("minThresholdAmount", JVal.obj [
    ("USDC", JVal.obj [(Chain.Optimism, JVal.obj [(Chain.Ethereum, v)])])])])]

/-- C9 counterexample: a `null` entry at `fees[enabledToken]` is falsy and
the key is present, but the pass fails with a `TypeError` raised by
`Object.keys(config.fees[token])` (line 193), not with the missing-entry
error `missing fee for token "USDC"` the claim asserts. -/
theorem C9_truthiness_counterexample :
    validateConfigFileStructure (c9FeeTokenCfg JVal.null) =
      Except.error "TypeError: Cannot convert undefined or null to object" ∧
    jhas (jget (c9FeeTokenCfg JVal.null) "fees") "USDC" = true ∧
    truthy (jget (jget (c9FeeTokenCfg JVal.null) "fees") "USDC") = false :=
  ⟨rfl, rfl, rfl⟩

/-- C9 (amended): the fee/threshold existence checks test truthiness, so a
present-but-falsy entry is treated as missing.  At
`fees[token][destinationChain]` and
`minThresholdAmount[token][sourceChain][destinationChain]` every falsy
value (0, false, null, "") produces the corresponding missing-entry error;
at `fees[enabledToken]` the falsy values 0, false and "" produce the
missing-fee-for-token error, while `null` makes the pass fail earlier with
a `TypeError` from key enumeration. -/
theorem C9_truthiness_amended :
    (∀ v : JVal, truthy v = false → isUndefined v = false →
      validateConfigFileStructure (c9FeeChainCfg v) =
        Except.error "missing fee for chain \"optimism\" for token \"USDC\"" ∧
      jhas (jget (jget (c9FeeChainCfg v) "fees") "USDC") "optimism" = true) ∧
    (∀ v : JVal, truthy v = false → isNullish v = false →
      validateConfigFileStructure (c9FeeTokenCfg v) =
        Except.error "missing fee for token \"USDC\"" ∧
      jhas (jget (c9FeeTokenCfg v) "fees") "USDC" = true) ∧
    (∀ v : JVal, truthy v = false → isUndefined v = false →
      validateConfigFileStructure (c9ThresholdCfg v) =
        Except.error "missing minThresholdAmount config for token \"USDC\" source chain \"optimism\" destination chain \"ethereum\"" ∧
      jhas (jget (jget (jget (jget (c9ThresholdCfg v) "commitTransfers") "minThresholdAmount") "USDC") Chain.Optimism) "ethereum" = true) := by
  refine ⟨?_, ?_, ?_⟩
  · intro v hf hu
    cases v with
    | undefined => cases hu
    | null => exact ⟨rfl, rfl⟩
    | bool b =>
      have hb : b = false := by simpa [truthy] using hf
      subst hb; exact ⟨rfl, rfl⟩
    | num n =>
      have hn : n = 0 := by simpa [truthy] using hf
      subst hn; exact ⟨rfl, rfl⟩
    | str s =>
      have hs : s = "" := by simpa [truthy] using hf
      subst hs; exact ⟨rfl, rfl⟩
    | obj fs => cases hf
  · intro v hf hu
    cases v with
    | undefined => cases hu
    | null => cases hu
    | bool b =>
      have hb : b = false := by simpa [truthy] using hf
      subst hb; exact ⟨rfl, rfl⟩
    | num n =>
      have hn : n = 0 := by simpa [truthy] using hf
      subst hn; exact ⟨rfl, rfl⟩
    | str s =>
      have hs : s = "" := by simpa [truthy] using hf
      subst hs; exact ⟨rfl, rfl⟩
    | obj fs => cases hf
  · intro v hf hu
    cases v with
    | undefined => cases hu
    | null => exact ⟨rfl, rfl⟩
    | bool b =>
      have hb : b = false := by simpa [truthy] using hf
      subst hb; exact ⟨rfl, rfl⟩
    | num n =>
      have hn : n = 0 := by simpa [truthy] using hf
      subst hn; exact ⟨rfl, rfl⟩
    | str s =>
      have hs : s = "" := by simpa [truthy] using hf
      subst hs; exact ⟨rfl, rfl⟩
    | obj fs => cases hf

theorem C9_truthiness_amended_witness :
    validateConfigFileStructure (c9FeeChainCfg (JVal.num 0)) =
      Except.error "missing fee for chain \"optimism\" for token \"USDC\"" ∧
    jhas (jget (jget (c9FeeChainCfg (JVal.num 0)) "fees") "USDC") "optimism" = true :=
  C9_truthiness_amended.1 (JVal.num 0) rfl rfl

theorem mem_of_containsb {l : List String} {x : String} (h : l.contains x = true) : x ∈ l := by
  simpa using h

theorem collectDestGo_ok_eq {routes : JVal} {l : List String} :
    ∀ (xs acc : List String), collectDestGo routes xs acc = Except.ok l →
      l = xs.foldl (fun a sc => (forInKeys (jget routes sc)).foldl addDest a) acc := by
  intro xs
  induction xs with
  | nil =>
    intro acc h
    rw [collectDestGo] at h
    injection h with he
    exact he.symm
  | cons sc rest ih =>
    intro acc h
    rw [collectDestGo] at h
    obtain ⟨ks, hks, h⟩ := exbind_eq_ok h
    have hke := jsKeys_ok_eq hks
    subst hke
    rw [List.foldl_cons]
    exact ih _ h

theorem collect_ok_eq {routes : JVal} {l : List String}
    (h : collectDestChainsM routes = Except.ok l) : l = destChainsList routes :=
  collectDestGo_ok_eq _ _ h

/-- Inversion of a successful `fees` structural check. -/
theorem checkFees_ok_entries {fees routes : JVal} {enabledChains enabledTokens : List String}
    (h : checkFees fees routes enabledChains enabledTokens = Except.ok ())
    (ht : truthy fees = true) :
    validateKeys enabledTokens (forInKeys fees) = Except.ok () ∧
    collectDestChainsM routes = Except.ok (destChainsList routes) ∧
    (∀ token ∈ forInKeys fees,
      jsKeys (jget fees token) = Except.ok (forInKeys (jget fees token)) ∧
      validateKeys enabledChains (forInKeys (jget fees token)) = Except.ok () ∧
      ∀ chain ∈ destChainsList routes, truthy (jget (jget fees token) chain) = true) ∧
    (∀ t ∈ enabledTokens, truthy (jget fees t) = true) := by
  rw [checkFees, ht, if_pos rfl, jsKeys_of_truthy ht, exbind_ok] at h
  obtain ⟨u, hvk, h⟩ := exbind_eq_ok h
  cases u
  obtain ⟨dcs, hdc, h⟩ := exbind_eq_ok h
  have hdce := collect_ok_eq hdc
  subst hdce
  obtain ⟨u, hloop, h⟩ := exbind_eq_ok h
  cases u
  refine ⟨hvk, hdc, ?_, ?_⟩
  · intro token htok
    have hf := (forEachE_ok_iff _ _).mp hloop token htok
    obtain ⟨chains, hck, hf⟩ := exbind_eq_ok hf
    have hcke := jsKeys_ok_eq hck
    subst hcke
    obtain ⟨u, hvk2, hf⟩ := exbind_eq_ok hf
    cases u
    exact ⟨hck, hvk2, fun chain hc => ok_of_if_truthy ((forEachE_ok_iff _ _).mp hf chain hc)⟩
  · intro t htk
    exact ok_of_if_truthy ((forEachE_ok_iff _ _).mp h t htk)

/-- Inversion of a successful `routes` structural check. -/
theorem checkRoutes_ok {routes : JVal} {enabledChains : List String}
    (h : checkRoutes routes enabledChains = Except.ok ()) (ht : truthy routes = true) :
    validateKeys enabledChains (forInKeys routes) = Except.ok () ∧
    ∀ sc ∈ forInKeys routes,
      validateKeys enabledChains (forInKeys (jget routes sc)) = Except.ok () := by
  rw [checkRoutes, ht, if_pos rfl, jsKeys_of_truthy ht, exbind_ok] at h
  obtain ⟨u, hvk, h⟩ := exbind_eq_ok h
  cases u
  refine ⟨hvk, fun sc hsc => ?_⟩
  have hf := (forEachE_ok_iff _ _).mp h sc hsc
  obtain ⟨ks, hks, hf⟩ := exbind_eq_ok hf
  have hke := jsKeys_ok_eq hks
  subst hke
  exact hf

theorem mem_foldl_addDest :
    ∀ (xs acc : List String) (x : String), x ∈ xs.foldl addDest acc → x ∈ acc ∨ x ∈ xs := by
  intro xs
  induction xs with
  | nil => intro acc x h; exact Or.inl h
  | cons d rest ih =>
    intro acc x h
    rw [List.foldl_cons] at h
    rcases ih (addDest acc d) x h with h1 | h1
    · rw [addDest] at h1
      by_cases hc : acc.contains d
      · rw [if_pos hc] at h1
        exact Or.inl h1
      · rw [if_neg hc] at h1
        rcases List.mem_append.mp h1 with h2 | h2
        · exact Or.inl h2
        · right
          have : x = d := by simpa using h2
          rw [this]
          exact List.mem_cons_self d rest
    · exact Or.inr (List.mem_cons_of_mem d h1)

theorem mem_destGo {routes : JVal} :
    ∀ (xs acc : List String) (c : String),
      c ∈ xs.foldl (fun a sc => (forInKeys (jget routes sc)).foldl addDest a) acc →
      c ∈ acc ∨ ∃ sc ∈ xs, c ∈ forInKeys (jget routes sc) := by
  intro xs
  induction xs with
  | nil => intro acc c h; exact Or.inl h
  | cons sc rest ih =>
    intro acc c h
    rw [List.foldl_cons] at h
    rcases ih _ c h with h1 | h1
    · rcases mem_foldl_addDest _ _ _ h1 with h2 | h2
      · exact Or.inl h2
      · exact Or.inr ⟨sc, List.mem_cons_self sc rest, h2⟩
    · obtain ⟨sc', hsc', hc⟩ := h1
      exact Or.inr ⟨sc', List.mem_cons_of_mem sc hsc', hc⟩

theorem mem_destChainsList {routes : JVal} {chain : String} (h : chain ∈ destChainsList routes) :
    ∃ sc ∈ forInKeys routes, chain ∈ forInKeys (jget routes sc) := by
  rcases mem_destGo _ _ _ h with h1 | h1
  · cases h1
  · exact h1

/-- Every destination chain of `routes` is an enabled chain whenever the
`routes` structural check passed. -/
theorem destChains_sub_enabled {routes : JVal} {enabledChains : List String}
    (hro : checkRoutes routes enabledChains = Except.ok ()) :
    ∀ chain ∈ destChainsList routes, enabledChains.contains chain = true := by
  intro chain hc
  obtain ⟨sc, hsc, hcm⟩ := mem_destChainsList hc
  have ht : truthy routes = true := truthy_of_mem_forInKeys hsc
  exact (validateKeys_ok_iff _ _).mp ((checkRoutes_ok hro ht).2 sc hsc) chain hcm

theorem digitChar_isDigit {n : Nat} (h : n < 10) : (Nat.digitChar n).isDigit = true := by
  interval_cases n <;> decide

theorem natStrGo_digits : ∀ (fuel n : Nat), ∀ c ∈ natStrGo fuel n, c.isDigit = true := by
  intro fuel
  induction fuel with
  | zero => intro n c hc; cases hc
  | succ fuel ih =>
    intro n c hc
    rw [natStrGo] at hc
    by_cases h : n < 10
    · rw [if_pos h] at hc
      have hce : c = Nat.digitChar n := by simpa using hc
      rw [hce]
      exact digitChar_isDigit h
    · rw [if_neg h] at hc
      rcases List.mem_append.mp hc with h1 | h1
      · exact ih (n / 10) c h1
      · have hce : c = Nat.digitChar (n % 10) := by simpa using h1
        rw [hce]
        exact digitChar_isDigit (Nat.mod_lt n (by norm_num))

theorem natStr_digits (n : Nat) : ∀ c ∈ (natStr n).data, c.isDigit = true := by
  intro c hc
  exact natStrGo_digits (n + 1) n c hc

/-- The `for ... in` keys of a string value are decimal index strings. -/
theorem mem_str_forInKeys_digits {s k : String} (h : k ∈ forInKeys (JVal.str s)) :
    ∀ c ∈ k.data, c.isDigit = true := by
  rw [show forInKeys (JVal.str s) = (List.range s.length).map natStr from rfl] at h
  obtain ⟨i, -, hk⟩ := List.mem_map.mp h
  rw [← hk]
  exact natStr_digits i

/-- A truthy property of a string receiver can only sit at a decimal index
key. -/
theorem jget_str_truthy_digits {s k : String} (h : truthy (jget (JVal.str s) k) = true) :
    ∀ c ∈ k.data, c.isDigit = true := by
  rw [show jget (JVal.str s) k =
    (match (List.range s.length).find? (fun i => natStr i == k) with
     | some i => JVal.str (String.mk [s.data.getD i (Char.ofNat 32)])
     | none => JVal.undefined) from rfl] at h
  cases hf : (List.range s.length).find? (fun i => natStr i == k) with
  | none => rw [hf] at h; cases h
  | some i =>
    have hp := List.find?_some hf
    have hk : natStr i = k := by simpa using hp
    rw [← hk]
    exact natStr_digits i

/-- None of the closed token or chain names is a decimal index string. -/
theorem digits_not_valid {k : String} (hd : ∀ c ∈ k.data, c.isDigit = true)
    (hk : k ∈ validTokenKeys ∨ k ∈ validChainKeys) : False := by
  rcases hk with hk | hk <;> fin_cases hk <;> exact absurd hd (by decide)

/-- A value owning a key drawn from the closed token/chain enumerations is
an object. -/
theorem obj_of_key_in_valid {v : JVal} {k : String} (hmem : k ∈ forInKeys v)
    (hvalid : k ∈ validTokenKeys ∨ k ∈ validChainKeys) :
    ∃ fs, v = JVal.obj fs := by
  cases v with
  | obj fs => exact ⟨fs, rfl⟩
  | str s => exact absurd hvalid (fun hv => digits_not_valid (mem_str_forInKeys_digits hmem) hv)
  | undefined => cases hmem
  | null => cases hmem
  | bool b => cases hmem
  | num n => cases hmem

/-- A value with a truthy property at a key drawn from the closed
token/chain enumerations is an object. -/
theorem obj_of_jget_truthy_valid {v : JVal} {k : String} (ht : truthy (jget v k) = true)
    (hvalid : k ∈ validTokenKeys ∨ k ∈ validChainKeys) :
    ∃ fs, v = JVal.obj fs := by
  cases v with
  | obj fs => exact ⟨fs, rfl⟩
  | str s => exact absurd hvalid (fun hv => digits_not_valid (jget_str_truthy_digits ht) hv)
  | undefined => cases ht
  | null => cases ht
  | bool b => cases ht
  | num n => cases ht

/-- Remove property `k` from an object (identity on non-objects): the
effect of `delete v[k]`. -/
def removeField (v : JVal) (k : String) : JVal :=
  match v with
  | .obj fields => .obj (fields.filter (fun p => p.1 != k))
  | _ => v

/-- Replace the value stored under `k` by `f` of it (identity on
non-objects and on absent keys). -/
def modifyField (v : JVal) (k : String) (f : JVal → JVal) : JVal :=
  match v with
  | .obj fields => .obj (fields.map (fun p => if p.1 = k then (p.1, f p.2) else p))
  | _ => v

/-- Remove the single fee entry `fees[token][chain]` from a
configuration. -/
def removeFeeEntry (config : JVal) (token chain : String) : JVal :=
  modifyField config "fees" (fun fees => modifyField fees token (fun m => removeField m chain))

theorem forInKeys_modifyField (fields : List (String × JVal)) (k : String) (f : JVal → JVal) :
    forInKeys (modifyField (JVal.obj fields) k f) = forInKeys (JVal.obj fields) := by
  induction fields with
  | nil => rfl
  | cons p rest ih =>
    show forInKeys (JVal.obj (((p :: rest).map (fun q => if q.1 = k then (q.1, f q.2) else q)))) = _
    rw [List.map_cons]
    show ((if p.1 = k then (p.1, f p.2) else p).1) :: forInKeys (JVal.obj (rest.map (fun q => if q.1 = k then (q.1, f q.2) else q))) = p.1 :: forInKeys (JVal.obj rest)
    rw [show ((if p.1 = k then (p.1, f p.2) else p).1) = p.1 from by split <;> rfl]
    rw [show forInKeys (JVal.obj (rest.map (fun q => if q.1 = k then (q.1, f q.2) else q))) = forInKeys (JVal.obj rest) from ih]

theorem jget_obj (fields : List (String × JVal)) (k : String) :
    jget (JVal.obj fields) k =
      (match fields.find? (fun p => p.1 == k) with
       | some p => p.2
       | none => JVal.undefined) := rfl

theorem find?_map_modify_ne (fields : List (String × JVal)) (k k' : String) (f : JVal → JVal)
    (h : k' ≠ k) :
    (fields.map (fun q => if q.1 = k then (q.1, f q.2) else q)).find? (fun p => p.1 == k') =
      fields.find? (fun p => p.1 == k') := by
  induction fields with
  | nil => rfl
  | cons p rest ih =>
    rw [List.map_cons, List.find?_cons, List.find?_cons]
    rw [show ((if p.1 = k then (p.1, f p.2) else p).1) = p.1 from by split <;> rfl]
    cases hb : p.1 == k' with
    | true =>
      have hpk : p.1 = k' := by simpa using hb
      rw [if_neg (fun hh : p.1 = k => h (hpk ▸ hh))]
    | false => exact ih

theorem jget_modifyField_ne (fields : List (String × JVal)) (k k' : String) (f : JVal → JVal)
    (h : k' ≠ k) :
    jget (modifyField (JVal.obj fields) k f) k' = jget (JVal.obj fields) k' := by
  rw [modifyField, jget_obj, jget_obj, find?_map_modify_ne fields k k' f h]

theorem find?_map_modify_self (fields : List (String × JVal)) (k : String) (f : JVal → JVal) :
    (fields.map (fun q => if q.1 = k then (q.1, f q.2) else q)).find? (fun p => p.1 == k) =
      (fields.find? (fun p => p.1 == k)).map (fun p => (p.1, f p.2)) := by
  induction fields with
  | nil => rfl
  | cons p rest ih =>
    rw [List.map_cons, List.find?_cons, List.find?_cons]
    rw [show ((if p.1 = k then (p.1, f p.2) else p).1) = p.1 from by split <;> rfl]
    cases hb : p.1 == k with
    | true =>
      have hpk : p.1 = k := by simpa using hb
      rw [if_pos hpk]
      rfl
    | false => exact ih

theorem jget_modifyField_self (fields : List (String × JVal)) (k : String) (f : JVal → JVal)
    (h : isUndefined (jget (JVal.obj fields) k) = false) :
    jget (modifyField (JVal.obj fields) k f) k = f (jget (JVal.obj fields) k) := by
  rw [modifyField, jget_obj, jget_obj, find?_map_modify_self fields k f]
  cases hf : fields.find? (fun p => p.1 == k) with
  | none =>
    rw [jget_obj, hf] at h
    cases h
  | some p => rfl

theorem jget_removeField_self (fields : List (String × JVal)) (k : String) :
    jget (removeField (JVal.obj fields) k) k = JVal.undefined := by
  rw [removeField, jget_obj]
  have hf : (fields.filter (fun p => p.1 != k)).find? (fun p => p.1 == k) = none := by
    rw [List.find?_eq_none]
    intro p hp hbt
    have hne := List.of_mem_filter hp
    simp at hne
    exact hne (by simpa using hbt)
  rw [hf]

theorem find?_filter_ne (fields : List (String × JVal)) (k k' : String) (h : k' ≠ k) :
    (fields.filter (fun p => p.1 != k)).find? (fun p => p.1 == k') =
      fields.find? (fun p => p.1 == k') := by
  induction fields with
  | nil => rfl
  | cons p rest ih =>
    rw [List.filter_cons, List.find?_cons]
    cases hpk : p.1 != k with
    | false =>
      have hpe : p.1 = k := by simpa using hpk
      rw [if_neg (fun hh => Bool.noConfusion hh)]
      rw [show (p.1 == k') = false from by
        rw [hpe]; exact beq_eq_false_iff_ne.mpr (fun hh => h hh.symm)]
      exact ih
    | true =>
      rw [if_pos rfl, List.find?_cons]
      cases hb : p.1 == k' with
      | true => rfl
      | false => exact ih

theorem jget_removeField_ne (fields : List (String × JVal)) (k k' : String) (h : k' ≠ k) :
    jget (removeField (JVal.obj fields) k) k' = jget (JVal.obj fields) k' := by
  rw [removeField, jget_obj, jget_obj, find?_filter_ne fields k k' h]

theorem mem_forInKeys_removeField (fields : List (String × JVal)) (k : String) :
    ∀ x ∈ forInKeys (removeField (JVal.obj fields) k), x ∈ forInKeys (JVal.obj fields) := by
  intro x hx
  rw [removeField] at hx
  rw [show forInKeys (JVal.obj (fields.filter (fun p => p.1 != k))) =
    (fields.filter (fun p => p.1 != k)).map (fun p => p.1) from rfl] at hx
  obtain ⟨p, hp, hpe⟩ := List.mem_map.mp hx
  exact hpe ▸ List.mem_map.mpr ⟨p, List.mem_of_mem_filter hp, rfl⟩

theorem exbind_error_of {α β : Type} {x : Except String α} {f : α → Except String β} {m : String}
    (h : x = Except.error m) : (x >>= f) = Except.error m := by
  rw [h, exbind_error]

/-- Removing the single entry `fees[token][chain]` from a `fees` section
that passed its structural check (with `chain` a destination chain) makes
the check fail with the missing-fee error naming that chain and token. -/
theorem checkFees_err_removed {routes : JVal} {enabledChains enabledTokens : List String}
    {token chain : String} {ffs wfs : List (String × JVal)}
    (hok : checkFees (JVal.obj ffs) routes enabledChains enabledTokens = Except.ok ())
    (htok : token ∈ forInKeys (JVal.obj ffs))
    (hch : chain ∈ destChainsList routes)
    (hwfs : jget (JVal.obj ffs) token = JVal.obj wfs) :
    checkFees (modifyField (JVal.obj ffs) token (fun m => removeField m chain)) routes enabledChains enabledTokens =
      Except.error ("missing fee for chain \"" ++ chain ++ "\" for token \"" ++ token ++ "\"") := by
  obtain ⟨hvk, hcol, hloop, hsec⟩ := checkFees_ok_entries hok rfl
  have hmf_truthy : truthy (modifyField (JVal.obj ffs) token (fun m => removeField m chain)) = true := by
    rw [modifyField]; rfl
  rw [checkFees, hmf_truthy, if_pos rfl, jsKeys_of_truthy hmf_truthy, exbind_ok,
    forInKeys_modifyField, hvk, exbind_ok, hcol, exbind_ok]
  refine exbind_error_of (forEachE_err _ _ token _ htok ?_ ?_)
  · -- the loop body at the removed token reaches the missing-fee error
    have hust : isUndefined (jget (JVal.obj ffs) token) = false := by rw [hwfs]; rfl
    rw [jget_modifyField_self ffs token _ hust, hwfs]
    have hrm_truthy : truthy (removeField (JVal.obj wfs) chain) = true := by
      rw [removeField]; rfl
    rw [jsKeys_of_truthy hrm_truthy, exbind_ok]
    have hvk2 : validateKeys enabledChains (forInKeys (removeField (JVal.obj wfs) chain)) = Except.ok () := by
      have h0 := (hloop token htok).2.1
      rw [hwfs] at h0
      exact validateKeys_sub _ _ _ (mem_forInKeys_removeField wfs chain) h0
    rw [hvk2, exbind_ok]
    refine forEachE_err _ _ chain _ hch ?_ ?_
    · rw [jget_removeField_self wfs chain,
        if_pos (show truthy JVal.undefined = false from rfl)]
    · intro c hc hcne
      rw [jget_removeField_ne wfs chain c hcne]
      have htc := (hloop token htok).2.2 c hc
      rw [hwfs] at htc
      rw [htc, if_neg (fun hh => Bool.noConfusion hh)]
  · -- every other token's loop body is unchanged and still succeeds
    intro t ht htne
    rw [jget_modifyField_ne ffs token t _ htne]
    obtain ⟨hjk_t, hvk_t, htr_t⟩ := hloop t ht
    rw [hjk_t, exbind_ok, hvk_t, exbind_ok]
    exact (forEachE_ok_iff _ _).mpr
      (fun c hc => by rw [htr_t c hc, if_neg (fun hh => Bool.noConfusion hh)])

/-- Rebuilding the structural pass: if every check before `fees` succeeds
and the `fees` check fails, the whole pass fails with the `fees` error. -/
theorem structure_err_fees {config : JVal} {msg : String}
    (h2 : isObject config = true)
    (h3 : validateKeys validSectionKeys (forInKeys config) = Except.ok ())
    (h4 : (forInKeys (jget config "chains")).contains Chain.Ethereum = true)
    (h5 : validateKeys validChainKeys (forInKeys (jget config "chains")) = Except.ok ())
    (h6 : checkChainEntries (jget config "chains") = Except.ok ())
    (h7 : jsKeys (jget config "chains") = Except.ok (forInKeys (jget config "chains")))
    (h8 : jsKeys (jget config "tokens") = Except.ok (forInKeys (jget config "tokens")))
    (h9 : validateKeys validTokenKeys (enabledTokensOf config) = Except.ok ())
    (h10 : jsKeys (jget config "watchers") = Except.ok (forInKeys (jget config "watchers")))
    (h11 : validateKeys validWatcherKeys (forInKeys (jget config "watchers")) = Except.ok ())
    (h12 : (truthy (jget config "keystore") && truthy (jget config "signer")) = false)
    (h13 : checkDb (jget config "db") = Except.ok ())
    (h14 : checkLogging (jget config "logging") = Except.ok ())
    (h15 : checkKeystore (jget config "keystore") = Except.ok ())
    (h16 : checkSigner (jget config "signer") = Except.ok ())
    (h17 : checkMetrics (jget config "metrics") = Except.ok ())
    (h18 : checkAddresses (jget config "addresses") = Except.ok ())
    (h19 : checkRoutes (jget config "routes") (forInKeys (jget config "chains")) = Except.ok ())
    (hf : checkFees (jget config "fees") (jget config "routes") (forInKeys (jget config "chains")) (enabledTokensOf config) = Except.error msg) :
    validateConfigFileStructure config = Except.error msg := by
  obtain ⟨cfs, hcfs⟩ := isObject_obj h2
  have h1 : truthy config = true := by rw [hcfs]; rfl
  have h9' : validateKeys validTokenKeys ((forInKeys (jget config "tokens")).filter
      (fun token => truthy (jget (jget config "tokens") token))) = Except.ok () := h9
  have hf' : checkFees (jget config "fees") (jget config "routes") (forInKeys (jget config "chains"))
      ((forInKeys (jget config "tokens")).filter (fun token => truthy (jget (jget config "tokens") token))) =
      Except.error msg := hf
  simp only [validateConfigFileStructure, validateStructureBody, h1, h2,
    Bool.true_eq_false, if_false, jsKeys_of_truthy h1, exbind_ok, h3, h7, h4, h5,
    h6, h8, h9', h10, h11, h12, Bool.false_eq_true, h13, h14, h15, h16, h17, h18,
    h19, hf', exbind_error]

/-- C1: with a `fees` section present, the structural pass succeeds only if
every enabled token has an entry in `fees` and every token in `fees` has an
entry for every destination chain appearing in `routes`; and removing any
single such fee entry from an accepted configuration makes the pass fail
with the missing-fee error naming that chain and token. -/
theorem C1_fee_matrix_required :
    (∀ config : JVal, validateConfigFileStructure config = Except.ok () →
      truthy (jget config "fees") = true →
      (∀ t ∈ enabledTokensOf config, jhas (jget config "fees") t = true) ∧
      (∀ token ∈ forInKeys (jget config "fees"), ∀ chain ∈ destChainsOf config,
        jhas (jget (jget config "fees") token) chain = true)) ∧
    (∀ (config : JVal) (token chain : String),
      validateConfigFileStructure config = Except.ok () →
      token ∈ forInKeys (jget config "fees") →
      chain ∈ destChainsOf config →
      validateConfigFileStructure (removeFeeEntry config token chain) =
        Except.error ("missing fee for chain \"" ++ chain ++ "\" for token \"" ++ token ++ "\"")) := by
  constructor
  · intro config h htf
    obtain ⟨-, -, -, -, -, -, -, -, -, -, -, -, -, -, -, -, -, -, -, h20, -, -, -, -⟩ :=
      structure_ok_parts h
    obtain ⟨-, -, hloop, hsec⟩ := checkFees_ok_entries h20 htf
    exact ⟨fun t ht => jhas_of_truthy (hsec t ht),
      fun token htok chain hch => jhas_of_truthy ((hloop token htok).2.2 chain hch)⟩
  · intro config token chain h htok hch
    obtain ⟨h1, h2, h3, h4, h5, h6, h7, h8, h9, h10, h11, h12, h13, h14, h15, h16,
      h17, h18, h19, h20, h21, h22, h23, h24⟩ := structure_ok_parts h
    have htf : truthy (jget config "fees") = true := truthy_of_mem_forInKeys htok
    obtain ⟨hvk0, hcol0, hloop0, hsec0⟩ := checkFees_ok_entries h20 htf
    have htoken_en : token ∈ enabledTokensOf config :=
      mem_of_containsb ((validateKeys_ok_iff _ _).mp hvk0 token htok)
    have htoken_valid : token ∈ validTokenKeys :=
      mem_of_containsb ((validateKeys_ok_iff _ _).mp h9 token htoken_en)
    have hch' : chain ∈ destChainsList (jget config "routes") := hch
    have hchain_en : chain ∈ forInKeys (jget config "chains") :=
      mem_of_containsb (destChains_sub_enabled h19 chain hch')
    have hchain_valid : chain ∈ validChainKeys :=
      mem_of_containsb ((validateKeys_ok_iff _ _).mp h5 chain hchain_en)
    obtain ⟨ffs, hffs⟩ := obj_of_key_in_valid htok (Or.inl htoken_valid)
    have htr : truthy (jget (jget (jget config "fees") token) chain) = true :=
      (hloop0 token htok).2.2 chain hch'
    obtain ⟨wfs, hwfs⟩ := obj_of_jget_truthy_valid htr (Or.inr hchain_valid)
    obtain ⟨cfs, hcfs⟩ := isObject_obj h2
    have hne : ∀ s : String, s ≠ "fees" →
        jget (removeFeeEntry config token chain) s = jget config s := by
      intro s hs
      rw [removeFeeEntry, hcfs]
      exact jget_modifyField_ne cfs "fees" s _ hs
    have hkeys : forInKeys (removeFeeEntry config token chain) = forInKeys config := by
      rw [removeFeeEntry, hcfs]
      exact forInKeys_modifyField cfs "fees" _
    have hobj : isObject (removeFeeEntry config token chain) = true := by
      rw [removeFeeEntry, hcfs, modifyField]
      rfl
    have hfees_get : jget (removeFeeEntry config token chain) "fees" =
        modifyField (jget config "fees") token (fun m => removeField m chain) := by
      have hu : isUndefined (jget (JVal.obj cfs) "fees") = false := by
        rw [← hcfs]
        exact truthy_not_undefined htf
      rw [removeFeeEntry, hcfs]
      exact jget_modifyField_self cfs "fees" _ hu
    have hent : enabledTokensOf (removeFeeEntry config token chain) = enabledTokensOf config := by
      rw [enabledTokensOf, enabledTokensOf, hne "tokens" (by decide)]
    refine structure_err_fees hobj ?_ ?_ ?_ ?_ ?_ ?_ ?_ ?_ ?_ ?_ ?_ ?_ ?_ ?_ ?_ ?_ ?_ ?_
    · rw [hkeys]; exact h3
    · rw [hne "chains" (by decide)]; exact h4
    · rw [hne "chains" (by decide)]; exact h5
    · rw [hne "chains" (by decide)]; exact h6
    · rw [hne "chains" (by decide)]; exact h7
    · rw [hne "tokens" (by decide)]; exact h8
    · rw [hent]; exact h9
    · rw [hne "watchers" (by decide)]; exact h10
    · rw [hne "watchers" (by decide)]; exact h11
    · rw [hne "keystore" (by decide), hne "signer" (by decide)]; exact h12
    · rw [hne "db" (by decide)]; exact h13
    · rw [hne "logging" (by decide)]; exact h14
    · rw [hne "keystore" (by decide)]; exact h15
    · rw [hne "signer" (by decide)]; exact h16
    · rw [hne "metrics" (by decide)]; exact h17
    · rw [hne "addresses" (by decide)]; exact h18
    · rw [hne "routes" (by decide), hne "chains" (by decide)]; exact h19
    · rw [hfees_get, hne "routes" (by decide), hne "chains" (by decide), hent, hffs]
      have hok' : checkFees (JVal.obj ffs) (jget config "routes")
          (forInKeys (jget config "chains")) (enabledTokensOf config) = Except.ok () := by
        rw [← hffs]; exact h20
      have htok' : token ∈ forInKeys (JVal.obj ffs) := by rw [← hffs]; exact htok
      have hwfs' : jget (JVal.obj ffs) token = JVal.obj wfs := by rw [← hffs]; exact hwfs
      exact checkFees_err_removed hok' htok' hch' hwfs'

theorem C1_fee_matrix_required_witness :
    validateConfigFileStructure (removeFeeEntry cfgBasic "USDC" Chain.Optimism) =
      Except.error "missing fee for chain \"optimism\" for token \"USDC\"" :=
  C1_fee_matrix_required.2 cfgBasic "USDC" Chain.Optimism rfl (by decide) (by decide)

theorem allIn_of_validateKeys {valid keys : List String}
    (h : validateKeys valid keys = Except.ok ()) : allIn keys valid = true := by
  rw [allIn, List.all_eq_true]
  exact (validateKeys_ok_iff _ _).mp h

theorem bor_not_truthy {v : JVal} {b : Bool} (h : truthy v = true → b = true) :
    (!truthy v || b) = true := by
  cases ht : truthy v with
  | false => rfl
  | true => rw [h ht, Bool.or_true]

theorem simpleSection_keys {v : JVal} {list : List String}
    (h : (if truthy v then jsKeys v >>= fun ks => validateKeys list ks else Except.ok ()) = Except.ok ())
    (ht : truthy v = true) : validateKeys list (forInKeys v) = Except.ok () := by
  rw [ht, if_pos rfl, jsKeys_of_truthy ht, exbind_ok] at h
  exact h

theorem checkChainEntries_keys {chains : JVal} (h : checkChainEntries chains = Except.ok ()) :
    ∀ c ∈ forInKeys chains,
      validateKeys ["rpcUrl", "maxGasPrice"] (forInKeys (jget chains c)) = Except.ok () := by
  intro c hc
  have hf := (forEachE_ok_iff _ _).mp h c hc
  obtain ⟨ks, hks, hf⟩ := exbind_eq_ok hf
  have hke := jsKeys_ok_eq hks
  subst hke
  exact hf

theorem checkLogging_keys {logging : JVal} (h : checkLogging logging = Except.ok ())
    (ht : truthy logging = true) :
    validateKeys ["level"] (forInKeys logging) = Except.ok () ∧
    (truthy (jget logging "level") = true →
      ["debug", "info", "warn", "error"].contains (jsToString (jget logging "level")) = true) := by
  rw [checkLogging, ht, if_pos rfl, jsKeys_of_truthy ht, exbind_ok] at h
  obtain ⟨u, hvk, h⟩ := exbind_eq_ok h
  cases u
  refine ⟨hvk, fun htl => ?_⟩
  rw [htl, if_pos rfl] at h
  exact (validateKeys_ok_iff _ _).mp h (jsToString (jget logging "level")) (by simp)

theorem checkCT_keys {ct routes : JVal} {enabledChains enabledTokens : List String}
    (h : checkCommitTransfers ct routes enabledChains enabledTokens = Except.ok ())
    (ht : truthy ct = true) :
    validateKeys ["minThresholdAmount"] (forInKeys ct) = Except.ok () ∧
    ((forInKeys (jget ct "minThresholdAmount")).length ≠ 0 →
      validateKeys enabledTokens (forInKeys (jget ct "minThresholdAmount")) = Except.ok ()) := by
  rw [checkCommitTransfers, ht, if_pos rfl, jsKeys_of_truthy ht, exbind_ok] at h
  obtain ⟨u, hvk, h⟩ := exbind_eq_ok h
  cases u
  obtain ⟨tokens, hmt, h⟩ := exbind_eq_ok h
  have hmte := jsKeys_ok_eq hmt
  subst hmte
  refine ⟨hvk, fun hne => ?_⟩
  rw [if_pos hne] at h
  obtain ⟨u, hvk2, h⟩ := exbind_eq_ok h
  exact hvk2

theorem checkBonders_keys {bonders : JVal} {enabledChains enabledTokens : List String}
    (h : checkBonders bonders enabledChains enabledTokens = Except.ok ())
    (ht : truthy bonders = true) :
    validateKeys enabledTokens (forInKeys bonders) = Except.ok () ∧
    ∀ t ∈ enabledTokens,
      validateKeys enabledChains (forInKeys (jget bonders t)) = Except.ok () ∧
      ∀ sc ∈ forInKeys (jget bonders t),
        validateKeys enabledChains (forInKeys (jget (jget bonders t) sc)) = Except.ok () := by
  rw [checkBonders, ht, if_pos rfl] at h
  cases hio : isObject bonders with
  | false => rw [hio, if_pos rfl] at h; cases h
  | true =>
  rw [hio, if_neg (fun hh => Bool.noConfusion hh), jsKeys_of_truthy ht, exbind_ok] at h
  obtain ⟨u, hvk, h⟩ := exbind_eq_ok h
  cases u
  refine ⟨hvk, fun t htm => ?_⟩
  have hf := (forEachE_ok_iff _ _).mp h t htm
  cases hio2 : isObject (jget bonders t) with
  | false => rw [hio2, if_pos rfl] at hf; cases hf
  | true =>
  rw [hio2, if_neg (fun hh => Bool.noConfusion hh)] at hf
  have ht2 : truthy (jget bonders t) = true := by
    obtain ⟨fs, hfs⟩ := isObject_obj hio2
    rw [hfs]; rfl
  rw [jsKeys_of_truthy ht2, exbind_ok] at hf
  obtain ⟨u, hvk2, hf⟩ := exbind_eq_ok hf
  cases u
  refine ⟨hvk2, fun sc hscm => ?_⟩
  have hg := (forEachE_ok_iff _ _).mp hf sc hscm
  cases hio3 : isObject (jget (jget bonders t) sc) with
  | false => rw [hio3, if_pos rfl] at hg; cases hg
  | true =>
  rw [hio3, if_neg (fun hh => Bool.noConfusion hh)] at hg
  have ht3 : truthy (jget (jget bonders t) sc) = true := by
    obtain ⟨fs, hfs⟩ := isObject_obj hio3
    rw [hfs]; rfl
  rw [jsKeys_of_truthy ht3, exbind_ok] at hg
  exact hg

theorem checkVault_keys {vault : JVal} (h : checkVault vault = Except.ok ())
    (ht : truthy vault = true) :
    validateKeys validTokenKeys (forInKeys vault) = Except.ok () ∧
    ∀ t ∈ forInKeys vault,
      validateKeys validChainKeys (forInKeys (jget vault t)) = Except.ok () ∧
      ∀ c ∈ forInKeys (jget vault t),
        validateKeys ["depositThresholdAmount", "depositAmount", "strategy", "autoWithdraw", "autoDeposit"]
          (forInKeys (jget (jget vault t) c)) = Except.ok () := by
  rw [checkVault, ht, if_pos rfl, jsKeys_of_truthy ht, exbind_ok] at h
  obtain ⟨u, hvk, h⟩ := exbind_eq_ok h
  cases u
  refine ⟨hvk, fun t htm => ?_⟩
  have hf := (forEachE_ok_iff _ _).mp h t htm
  obtain ⟨ks, hks, hf⟩ := exbind_eq_ok hf
  have hke := jsKeys_ok_eq hks
  subst hke
  obtain ⟨u, hvk2, hf⟩ := exbind_eq_ok hf
  cases u
  refine ⟨hvk2, fun c hcm => ?_⟩
  have hg := (forEachE_ok_iff _ _).mp hf c hcm
  obtain ⟨ks2, hks2, hg⟩ := exbind_eq_ok hg
  have hke2 := jsKeys_ok_eq hks2
  subst hke2
  exact hg

theorem checkBlocklist_keys {blocklist : JVal} (h : checkBlocklist blocklist = Except.ok ())
    (ht : truthy blocklist = true) :
    validateKeys ["path", "addresses"] (forInKeys blocklist) = Except.ok () := by
  rw [checkBlocklist, ht, if_pos rfl] at h
  cases hio : isObject blocklist with
  | false => rw [hio, if_pos rfl] at h; cases h
  | true =>
  rw [hio, if_neg (fun hh => Bool.noConfusion hh), jsKeys_of_truthy ht, exbind_ok] at h
  exact h

/-- The spec-side predicate for C3, following §4.2's words: every section
and nested key the spec enumerates belongs to its respective allow-list
(top-level sections, chain keys and per-chain config keys, enabled tokens,
watcher names, per-section keys for db/logging/keystore/signer/metrics/
addresses/blocklist, the logging level, route endpoints against the
enabled chains, fee tokens against the enabled tokens, commitTransfers
keys and threshold tokens, the bonders hierarchy — token keys against the
enabled tokens and, for every enabled token, source-chain and per-source
destination-chain keys against the enabled chains — and the vault
hierarchy). -/
def specAllKeysAllowed (config : JVal) : Bool :=
  allIn (forInKeys config) validSectionKeys &&
  allIn (forInKeys (jget config "chains")) validChainKeys &&
  (forInKeys (jget config "chains")).all
    (fun c => allIn (forInKeys (jget (jget config "chains") c)) ["rpcUrl", "maxGasPrice"]) &&
  allIn (enabledTokensOf config) validTokenKeys &&
  allIn (forInKeys (jget config "watchers")) validWatcherKeys &&
  (!truthy (jget config "db") || allIn (forInKeys (jget config "db")) ["location"]) &&
  (!truthy (jget config "logging") ||
    (allIn (forInKeys (jget config "logging")) ["level"] &&
      (!truthy (jget (jget config "logging") "level") ||
        ["debug", "info", "warn", "error"].contains (jsToString (jget (jget config "logging") "level"))))) &&
  (!truthy (jget config "keystore") ||
    allIn (forInKeys (jget config "keystore")) ["location", "pass", "passwordFile", "parameterStore", "awsRegion"]) &&
  (!truthy (jget config "signer") ||
    allIn (forInKeys (jget config "signer")) ["type", "keyId", "awsRegion", "lambdaFunctionName"]) &&
  (!truthy (jget config "metrics") || allIn (forInKeys (jget config "metrics")) ["enabled", "port"]) &&
  (!truthy (jget config "addresses") || allIn (forInKeys (jget config "addresses")) ["location"]) &&
  (!truthy (jget config "routes") ||
    (allIn (forInKeys (jget config "routes")) (forInKeys (jget config "chains")) &&
      (forInKeys (jget config "routes")).all
        (fun sc => allIn (forInKeys (jget (jget config "routes") sc)) (forInKeys (jget config "chains"))))) &&
  (!truthy (jget config "fees") || allIn (forInKeys (jget config "fees")) (enabledTokensOf config)) &&
  (!truthy (jget config "commitTransfers") ||
    (allIn (forInKeys (jget config "commitTransfers")) ["minThresholdAmount"] &&
      ((forInKeys (jget (jget config "commitTransfers") "minThresholdAmount")).isEmpty ||
        allIn (forInKeys (jget (jget config "commitTransfers") "minThresholdAmount")) (enabledTokensOf config)))) &&
  (!truthy (jget config "bonders") ||
    (allIn (forInKeys (jget config "bonders")) (enabledTokensOf config) &&
      (enabledTokensOf config).all
        (fun t => allIn (forInKeys (jget (jget config "bonders") t)) (forInKeys (jget config "chains")) &&
          (forInKeys (jget (jget config "bonders") t)).all
            (fun sc => allIn (forInKeys (jget (jget (jget config "bonders") t) sc))
              (forInKeys (jget config "chains")))))) &&
  (!truthy (jget config "vault") ||
    (allIn (forInKeys (jget config "vault")) validTokenKeys &&
      (forInKeys (jget config "vault")).all
        (fun t => allIn (forInKeys (jget (jget config "vault") t)) validChainKeys &&
          (forInKeys (jget (jget config "vault") t)).all
            (fun c => allIn (forInKeys (jget (jget (jget config "vault") t) c))
              ["depositThresholdAmount", "depositAmount", "strategy", "autoWithdraw", "autoDeposit"])))) &&
  (!truthy (jget config "blocklist") || allIn (forInKeys (jget config "blocklist")) ["path", "addresses"])

/-- A configuration whose every key sits in its allow-list but which the
structural pass rejects (the base chain is missing). -/
def cfgNoEthereum : JVal := JVal.obj [
  ("chains", JVal.obj [(Chain.Optimism, JVal.obj [])]),
  ("tokens", JVal.obj []),
  ("watchers", JVal.obj [])]

/-- C3 counterexample: allow-list membership of every key is not sufficient
for acceptance — `cfgNoEthereum` satisfies every allow-list but the
structural pass rejects it, so the claimed equivalence fails. -/
theorem C3_allowlist_counterexample :
    specAllKeysAllowed cfgNoEthereum = true ∧
    validateConfigFileStructure cfgNoEthereum =
      Except.error "config for chain \"ethereum\" is required" :=
  ⟨rfl, rfl⟩

/-- C3 (amended): allow-list membership of every section and nested key is
necessary for structural acceptance (but not sufficient: presence of the
base chain, the credential exclusivity rule, and matrix completeness are
additionally enforced). -/
theorem C3_allowlist_necessary (config : JVal)
    (h : validateConfigFileStructure config = Except.ok ()) :
    specAllKeysAllowed config = true := by
  obtain ⟨h1, h2, h3, h4, h5, h6, h7, h8, h9, h10, h11, h12, h13, h14, h15, h16,
    h17, h18, h19, h20, h21, h22, h23, h24⟩ := structure_ok_parts h
  rw [specAllKeysAllowed]
  simp only [Bool.and_eq_true, and_assoc]
  refine ⟨allIn_of_validateKeys h3, allIn_of_validateKeys h5, ?_,
    allIn_of_validateKeys h9, allIn_of_validateKeys h11, ?_, ?_, ?_, ?_, ?_, ?_,
    ?_, ?_, ?_, ?_, ?_, ?_⟩
  · rw [List.all_eq_true]
    exact fun c hc => allIn_of_validateKeys (checkChainEntries_keys h6 c hc)
  · exact bor_not_truthy (fun ht => allIn_of_validateKeys (simpleSection_keys h13 ht))
  · refine bor_not_truthy (fun ht => ?_)
    obtain ⟨hk, hl⟩ := checkLogging_keys h14 ht
    rw [Bool.and_eq_true]
    exact ⟨allIn_of_validateKeys hk, bor_not_truthy hl⟩
  · exact bor_not_truthy (fun ht => allIn_of_validateKeys (simpleSection_keys h15 ht))
  · exact bor_not_truthy (fun ht => allIn_of_validateKeys (simpleSection_keys h16 ht))
  · exact bor_not_truthy (fun ht => allIn_of_validateKeys (simpleSection_keys h17 ht))
  · exact bor_not_truthy (fun ht => allIn_of_validateKeys (simpleSection_keys h18 ht))
  · refine bor_not_truthy (fun ht => ?_)
    obtain ⟨hk, hsc⟩ := checkRoutes_ok h19 ht
    rw [Bool.and_eq_true]
    refine ⟨allIn_of_validateKeys hk, ?_⟩
    rw [List.all_eq_true]
    exact fun sc hscm => allIn_of_validateKeys (hsc sc hscm)
  · exact bor_not_truthy (fun ht => allIn_of_validateKeys (checkFees_ok_entries h20 ht).1)
  · refine bor_not_truthy (fun ht => ?_)
    obtain ⟨hk, hne⟩ := checkCT_keys h21 ht
    rw [Bool.and_eq_true]
    refine ⟨allIn_of_validateKeys hk, ?_⟩
    cases he : (forInKeys (jget (jget config "commitTransfers") "minThresholdAmount")).isEmpty with
    | true => rfl
    | false =>
      rw [Bool.false_or]
      refine allIn_of_validateKeys (hne ?_)
      intro h0
      rw [List.length_eq_zero] at h0
      rw [h0] at he
      cases he
  · refine bor_not_truthy (fun ht => ?_)
    obtain ⟨hk, hts⟩ := checkBonders_keys h22 ht
    rw [Bool.and_eq_true]
    refine ⟨allIn_of_validateKeys hk, ?_⟩
    rw [List.all_eq_true]
    intro t htm
    obtain ⟨hsk, hscs⟩ := hts t htm
    rw [Bool.and_eq_true]
    refine ⟨allIn_of_validateKeys hsk, ?_⟩
    rw [List.all_eq_true]
    exact fun sc hscm => allIn_of_validateKeys (hscs sc hscm)
  · refine bor_not_truthy (fun ht => ?_)
    obtain ⟨hk, hts⟩ := checkVault_keys h23 ht
    rw [Bool.and_eq_true]
    refine ⟨allIn_of_validateKeys hk, ?_⟩
    rw [List.all_eq_true]
    intro t htm
    obtain ⟨hck, hcs⟩ := hts t htm
    rw [Bool.and_eq_true]
    refine ⟨allIn_of_validateKeys hck, ?_⟩
    rw [List.all_eq_true]
    exact fun c hcm => allIn_of_validateKeys (hcs c hcm)
  · exact bor_not_truthy (fun ht => allIn_of_validateKeys (checkBlocklist_keys h24 ht))

theorem C3_allowlist_necessary_witness :
    specAllKeysAllowed cfgBasic = true :=
  C3_allowlist_necessary cfgBasic rfl
